import Mathlib

/-!
# AD9833 waveform generator driver: register encoding and write sequencing

A shallow embedding of `libraries/AD9833/AD9833.h`.

* The driver object is the record `AD9833`: the five shadow fields of the
  C++ class plus `spi`, the list of 16-bit frames handed to the SPI bus so
  far (oldest first). `writeReg` is the only function that touches the bus;
  it sends one 16-bit frame (high byte, then low byte, under one chip
  select), recorded here as one entry of `spi`.
* `uint8_t` / `uint16_t` / `uint32_t` values are natural numbers, reduced
  modulo `2^8` / `2^16` / `2^32` wherever the C++ code stores or converts
  them.
* `float` is IEEE-754 binary32, modelled exactly by `F32`; the product is
  rounded to nearest, ties to even (`F32.mul_error`), and the conversion to
  `uint32_t` discards the fraction (`F32.truncAbs_eq_floor`). Where C++ leaves
  that conversion undefined, the operations take the target's result as the
  parameter `ub`, and every theorem holds for all `ub`.
* The scaling expression of `writePhaseRad` uses the macro `PI` of the
  Arduino core, which is outside this repository; its value is the parameter
  `radData`. `Toolchain` bundles these parameters for sequences of calls
  (`Op`, `step`, `run`).
-/

/-! ## Bit masks (lines 11-45 of the header)

The masks are `int` constants; every one fits in 14 bits. The macros
`WAVEFORM_SQUARE` and `FULL_POWERDOWN` expand to an unparenthesised `a | b`,
which the driver only ever uses as a whole argument or initialiser. -/

def B28_CFG : Nat := 1 <<< 13
def HLB_CFG : Nat := 1 <<< 12
def F_SELECT_CFG : Nat := 1 <<< 11
def P_SELECT_CFG : Nat := 1 <<< 10
def RESET_CFG : Nat := 1 <<< 8
def SLEEP1_CFG : Nat := 1 <<< 7
def SLEEP12_CFG : Nat := 1 <<< 6
def OPBITEN_CFG : Nat := 1 <<< 5
def DIV2_CFG : Nat := 1 <<< 3
def MODE_CFG : Nat := 1 <<< 1

def FREQ0_ACCESS : Nat := 0x4000
def FREQ1_ACCESS : Nat := 0x8000
def PHASE0_ACCESS : Nat := 0xC000
def PHASE1_ACCESS : Nat := 0xE000

def WAVEFORM_SINE : Nat := 0
def WAVEFORM_TRIANGLE : Nat := MODE_CFG
def WAVEFORM_SQUARE : Nat := OPBITEN_CFG ||| DIV2_CFG
def WAVEFORM_SQUARE_DIV2 : Nat := OPBITEN_CFG

def NO_POWERDOWN : Nat := 0
def DAC_POWERDOWN : Nat := SLEEP12_CFG
def CLOCK_POWERDOWN : Nat := SLEEP1_CFG
def FULL_POWERDOWN : Nat := SLEEP12_CFG ||| SLEEP1_CFG

def FREQ0 : Nat := 0
def FREQ1 : Nat := 1
def PHASE0 : Nat := 0
def PHASE1 : Nat := 1

/-! ## Single-precision floating point

`float` is IEEE-754 binary32 on every Arduino target. A finite value is
kept as sign, integer significand and binary exponent, so that products
are computed exactly and then rounded once, to nearest, ties to even. -/

/-- A `float`: `finite neg m e` stands for `(-1)^neg * m * 2^e`. -/
inductive F32 where
  | finite (neg : Bool) (m : Nat) (e : Int)
  | inf (neg : Bool)
  | nan
  deriving DecidableEq, Repr

namespace F32

/-- The values a binary32 variable can hold: 24 significand bits, exponent
of the last place between `-149` (subnormals) and `104`. -/
def isBinary32 : F32 → Prop
  | finite _ m e => m < 2 ^ 24 ∧ -149 ≤ e ∧ e ≤ 104
  | _ => True

instance (x : F32) : Decidable x.isBinary32 := by
  cases x <;> unfold isBinary32 <;> infer_instance

/-- Neither an infinity nor a NaN. -/
def isFinite : F32 → Bool
  | finite _ _ _ => true
  | _ => false

/-- The number a finite `float` stands for (`0` for infinities and NaN). -/
def toRat : F32 → ℚ
  | finite neg m e => (if neg then -1 else 1) * (m : ℚ) * 2 ^ e
  | _ => 0

/-- Number of significant bits of `n`, by halving at most `fuel` times. -/
def bitLengthAux : Nat → Nat → Nat
  | 0, _ => 0
  | fuel + 1, n => if n = 0 then 0 else bitLengthAux fuel (n / 2) + 1

/-- Number of significant bits of `n` (`n` halvings always suffice). -/
def bitLength (n : Nat) : Nat :=
  bitLengthAux n n

/-- Number of low bits of `M` that do not fit: what exceeds 24 significant
bits, and what lies below the smallest subnormal place `2^-149`. -/
def dropBits (M : Nat) (E : Int) : Nat :=
  max (bitLength M - 24) (Int.toNat (-149 - E))

/-- The significand `M / 2^s` rounded to nearest, ties to even. -/
def roundNearestEven (M s : Nat) : Nat :=
  let q := M / 2 ^ s
  let r := M % 2 ^ s
  if 2 * r < 2 ^ s then q else if 2 ^ s < 2 * r then q + 1
  else if q % 2 = 0 then q else q + 1

/-- Round the exact value `(-1)^neg * M * 2^E` to binary32: keep 24
significant bits (fewer below `2^-126`), nearest value, ties to even;
overflow gives an infinity. -/
def round (neg : Bool) (M : Nat) (E : Int) : F32 :=
  let s := dropBits M E
  let q := roundNearestEven M s
  let E := E + (s : Int)
  if 0 ≤ E ∧ 2 ^ 128 ≤ q * 2 ^ E.toNat then inf neg else finite neg q E

/-- The `float * float` product. -/
def mul : F32 → F32 → F32
  | nan, _ => nan
  | _, nan => nan
  | inf a, inf b => inf (a != b)
  | inf a, finite b m _ => if m = 0 then nan else inf (a != b)
  | finite a m _, inf b => if m = 0 then nan else inf (a != b)
  | finite a m₁ e₁, finite b m₂ e₂ => round (a != b) (m₁ * m₂) (e₁ + e₂)

/-- Magnitude of a finite value with the fractional part discarded. -/
def truncAbs (m : Nat) (e : Int) : Nat :=
  if 0 ≤ e then m * 2 ^ e.toNat else m / 2 ^ (-e).toNat

/-- Conversion `float → uint32_t`: the fractional part is discarded. When
the integral part is not a `uint32_t` value (negative, `2^32` or more, an
infinity or a NaN) C++ leaves the result undefined; `ub` gives the 32 bits
the target produces in that case. -/
def toUInt32 (ub : F32 → Nat) (x : F32) : Nat :=
  match x with
  | finite neg m e =>
    if truncAbs m e = 0 then 0
    else if neg = false ∧ truncAbs m e < 2 ^ 32 then truncAbs m e
    else ub x % 2 ^ 32
  | _ => ub x % 2 ^ 32

/-- Conversion `float → uint16_t`: as `toUInt32`, for a 16-bit result. -/
def toUInt16 (ub : F32 → Nat) (x : F32) : Nat :=
  match x with
  | finite neg m e =>
    if truncAbs m e = 0 then 0
    else if neg = false ∧ truncAbs m e < 2 ^ 16 then truncAbs m e
    else ub x % 2 ^ 16
  | _ => ub x % 2 ^ 16

end F32

/-! ## The driver object -/

/-- The class `AD9833`: its private members (all `uint8_t`) and the trace
of frames sent on the bus. The defaults are the member initialisers. -/
structure AD9833 where
  _cs_pin : Nat := 0
  _waveform : Nat := WAVEFORM_SINE
  _sleep_mode : Nat := NO_POWERDOWN
  _freq_source : Nat := FREQ0
  _phase_source : Nat := PHASE0
  _reset_state : Nat := 0
  spi : List Nat := []
  deriving DecidableEq, Repr

namespace AD9833

/-- The constructor `AD9833::AD9833(uint8_t cs)`: stores the chip-select pin,
every other member keeps its initialiser. -/
def new (cs : Nat) : AD9833 :=
  { _cs_pin := cs % 256 }

/-- `AD9833::writeReg(uint16_t data)`: one 16-bit frame on the bus. -/
def writeReg (d : AD9833) (data : Nat) : AD9833 :=
  { d with spi := d.spi ++ [data % 65536] }

/-- The local `uint16_t cfg` of `writeCfgReg`, after its six `|=`. -/
def cfg (d : AD9833) : Nat :=
  let cfg := 0
  let cfg := (cfg ||| d._waveform % 256) % 65536
  let cfg := (cfg ||| d._sleep_mode % 256) % 65536
  let cfg := (cfg ||| (if d._freq_source % 256 ≠ 0 then F_SELECT_CFG else 0)) % 65536
  let cfg := (cfg ||| (if d._phase_source % 256 ≠ 0 then P_SELECT_CFG else 0)) % 65536
  let cfg := (cfg ||| (if d._reset_state % 256 ≠ 0 then RESET_CFG else 0)) % 65536
  let cfg := (cfg ||| B28_CFG) % 65536
  cfg

/-- `AD9833::writeCfgReg()`: build the control word from the shadow fields
and send it. -/
def writeCfgReg (d : AD9833) : AD9833 :=
  writeReg d (cfg d)

/-- The literal `10.7374182f`: the binary32 nearest to `10.7374182` is
`11258999 * 2^-20`. -/
def freqFactor : F32 := F32.finite false 11258999 (-20)

/-- The local `uint32_t freqData` of `writeFrequency`:
`(float)(freq * 10.7374182f)` converted to `uint32_t`. -/
def freqData (ub : F32 → Nat) (freq : F32) : Nat :=
  F32.toUInt32 ub (F32.mul freq freqFactor)

/-- The local `uint16_t target` of `writeFreqReg`. -/
def target (reg : Bool) : Nat :=
  (if reg then FREQ1_ACCESS else FREQ0_ACCESS) % 65536

/-- The local `uint16_t data_lsb` of `writeFreqReg`:
`target | (uint16_t)data & 0x3FFF`, for a `uint32_t data`. -/
def data_lsb (reg : Bool) (data : Nat) : Nat :=
  (target reg ||| ((data % 2 ^ 32) % 65536 &&& 0x3FFF)) % 65536

/-- The local `uint16_t data_msb` of `writeFreqReg`:
`target | (uint16_t)(data >> 14)`, for a `uint32_t data`. -/
def data_msb (reg : Bool) (data : Nat) : Nat :=
  (target reg ||| ((data % 2 ^ 32) >>> 14) % 65536) % 65536

/-- `AD9833::writeFreqReg(bool reg, uint32_t data)`. -/
def writeFreqReg (d : AD9833) (reg : Bool) (data : Nat) : AD9833 :=
  let d := writeCfgReg d
  let d := writeReg d (data_lsb reg data)
  writeReg d (data_msb reg data)

/-- `AD9833::writeFrequency(bool reg, float freq)`. -/
def writeFrequency (ub : F32 → Nat) (d : AD9833) (reg : Bool) (freq : F32) : AD9833 :=
  writeFreqReg d reg (freqData ub freq)

/-- `AD9833::begin()`. `SPI.begin()` only configures the bus. -/
def begin (d : AD9833) : AD9833 :=
  let d := { d with _reset_state := 1 }
  writeCfgReg d

/-- `AD9833::selectPhase(bool reg)`. -/
def selectPhase (d : AD9833) (reg : Bool) : AD9833 :=
  let d := { d with _phase_source := if reg then 1 else 0 }
  writeCfgReg d

/-- `AD9833::selectFrequency(bool reg)`. -/
def selectFrequency (d : AD9833) (reg : Bool) : AD9833 :=
  let d := { d with _freq_source := if reg then 1 else 0 }
  writeCfgReg d

/-- `AD9833::sleep(uint8_t mode)`. -/
def sleep (d : AD9833) (mode : Nat) : AD9833 :=
  let d := { d with _sleep_mode := mode % 256 }
  writeCfgReg d

/-- `AD9833::setWaveform(uint8_t mode)`. -/
def setWaveform (d : AD9833) (mode : Nat) : AD9833 :=
  let d := { d with _waveform := mode % 256 }
  writeCfgReg d

/-- `AD9833::outputEnable(bool state)`: `_reset_state = !state`. -/
def outputEnable (d : AD9833) (state : Bool) : AD9833 :=
  let d := { d with _reset_state := if state then 0 else 1 }
  writeCfgReg d

/-- `AD9833::generate(bool reg, float freq, uint8_t form)`. -/
def generate (ub : F32 → Nat) (d : AD9833) (reg : Bool) (freq : F32) (form : Nat) : AD9833 :=
  let d := outputEnable d false
  let d := { d with _phase_source := if reg then 1 else 0 }
  let d := { d with _waveform := form % 256 }
  let d := writeCfgReg d
  let d := writeFrequency ub d reg freq
  outputEnable d true

/-- The constant `4096.0f / 360.0f`: the binary32 nearest to `4096 / 360` is
`11930465 * 2^-20`. -/
def degFactor : F32 := F32.finite false 11930465 (-20)

/-- The local `uint16_t phaseData` of `writePhaseDeg`:
`(float)deg * (4096.0f / 360.0f)` converted to `uint16_t`. -/
def phaseDataDeg (ub : F32 → Nat) (deg : F32) : Nat :=
  F32.toUInt16 ub (F32.mul deg degFactor)

/-- The local `uint16_t target` of `writePhaseReg`. -/
def phaseTarget (reg : Bool) : Nat :=
  (if reg then PHASE1_ACCESS else PHASE0_ACCESS) % 65536

/-- The frame `writePhaseReg` sends: `target | (uint16_t)(data & 0xFFF)`,
for a `uint16_t data`. -/
def phaseFrame (reg : Bool) (data : Nat) : Nat :=
  (phaseTarget reg ||| ((data % 65536 &&& 0xFFF) % 65536)) % 65536

/-- `AD9833::writePhaseReg(bool reg, uint16_t data)`. -/
def writePhaseReg (d : AD9833) (reg : Bool) (data : Nat) : AD9833 :=
  writeReg d (phaseFrame reg data)

/-- `AD9833::writePhaseDeg(bool reg, float deg)`. -/
def writePhaseDeg (ub : F32 → Nat) (d : AD9833) (reg : Bool) (deg : F32) : AD9833 :=
  writePhaseReg d reg (phaseDataDeg ub deg)

/-- `AD9833::writePhaseRad(bool reg, float rad)`. Its `uint16_t phaseData` is
`(float)rad * (4096.0f / (2.0f * PI))`; `PI` is a macro of the Arduino core,
which is not part of this repository, and the precision of the product
depends on it, so `radData rad` stands for the value of that expression. -/
def writePhaseRad (radData : F32 → Nat) (d : AD9833) (reg : Bool) (rad : F32) : AD9833 :=
  writePhaseReg d reg (radData rad)

/-- The 12-bit phase code inside a phase frame (bits 11..0). -/
def phaseCode (frame : Nat) : Nat :=
  frame % 2 ^ 12

/-- The five shadow fields of the driver, without pin and bus trace. -/
def shadow (d : AD9833) : Nat × Nat × Nat × Nat × Nat :=
  (d._waveform, d._sleep_mode, d._freq_source, d._phase_source, d._reset_state)

/-- A call of one public member function, with its arguments. -/
inductive Op where
  | begin
  | writeFrequency (reg : Bool) (freq : F32)
  | selectFrequency (reg : Bool)
  | writePhaseRad (reg : Bool) (rad : F32)
  | writePhaseDeg (reg : Bool) (deg : F32)
  | selectPhase (reg : Bool)
  | setWaveform (mode : Nat)
  | outputEnable (state : Bool)
  | sleep (mode : Nat)
  | generate (reg : Bool) (freq : F32) (form : Nat)

/-- What the target hardware and the Arduino core fix: the results of the
out-of-range `float → uint32_t` and `float → uint16_t` conversions and the
value of the `writePhaseRad` scaling expression. -/
structure Toolchain where
  ub32 : F32 → Nat
  ub16 : F32 → Nat
  radData : F32 → Nat

/-- Run one public call on the driver. -/
def step (P : Toolchain) (d : AD9833) : Op → AD9833
  | Op.begin => d.begin
  | Op.writeFrequency reg freq => d.writeFrequency P.ub32 reg freq
  | Op.selectFrequency reg => d.selectFrequency reg
  | Op.writePhaseRad reg rad => d.writePhaseRad P.radData reg rad
  | Op.writePhaseDeg reg deg => d.writePhaseDeg P.ub16 reg deg
  | Op.selectPhase reg => d.selectPhase reg
  | Op.setWaveform mode => d.setWaveform mode
  | Op.outputEnable state => d.outputEnable state
  | Op.sleep mode => d.sleep mode
  | Op.generate reg freq form => d.generate P.ub32 reg freq form

/-- Run a sequence of public calls, first call first. -/
def run (P : Toolchain) (d : AD9833) (ops : List Op) : AD9833 :=
  ops.foldl (step P) d

/-- A frame is a control word when its bits 15:14 are `00`; `01` and `10`
address a frequency register, `11` a phase register. -/
def isControlWord (frame : Nat) : Bool :=
  decide (frame / 2 ^ 14 = 0)

/-- The control word sent first on the bus, if any was sent. -/
def firstControlWord (frames : List Nat) : Option Nat :=
  (frames.filter isControlWord).head?

/-- The control word sent last on the bus, if any was sent. -/
def lastControlWord (frames : List Nat) : Option Nat :=
  (frames.filter isControlWord).getLast?

/-- A valid shadow state: a named waveform, a named sleep mode, and `0` or
`1` in the frequency source, the phase source and the reset state. -/
def valid (d : AD9833) : Prop :=
  (d._waveform = WAVEFORM_SINE ∨ d._waveform = WAVEFORM_TRIANGLE ∨
    d._waveform = WAVEFORM_SQUARE ∨ d._waveform = WAVEFORM_SQUARE_DIV2) ∧
  (d._sleep_mode = NO_POWERDOWN ∨ d._sleep_mode = DAC_POWERDOWN ∨
    d._sleep_mode = CLOCK_POWERDOWN ∨ d._sleep_mode = FULL_POWERDOWN) ∧
  (d._freq_source = 0 ∨ d._freq_source = 1) ∧
  (d._phase_source = 0 ∨ d._phase_source = 1) ∧
  (d._reset_state = 0 ∨ d._reset_state = 1)

instance (d : AD9833) : Decidable d.valid := by
  unfold valid
  infer_instance

/-- Read the five settings back from a control word: the waveform bits
5, 3, 1, the sleep bits 7, 6, and bits 11, 10 and 8. -/
def decodeControlWord (c : Nat) : Nat × Nat × Nat × Nat × Nat :=
  (c &&& (OPBITEN_CFG ||| DIV2_CFG ||| MODE_CFG), c &&& (SLEEP1_CFG ||| SLEEP12_CFG),
    (c >>> 11) % 2, (c >>> 10) % 2, (c >>> 8) % 2)

/-- Check, for a whole number of degrees `n`, that the fraction of the exact
product `n * 11930465 / 2^20` stays `2^-7` below the next integer. -/
def fractionBelow (n : Nat) : Bool :=
  decide ((n * 11930465) % 2 ^ 20 < 2 ^ 20 - 2 ^ 13)

/-- The check `f` holds for the `n` numbers from `lo` on. -/
def allFrom (f : Nat → Bool) (lo : Nat) : Nat → Bool
  | 0 => true
  | n + 1 => f (lo + n) && allFrom f lo n

end AD9833

/-- The spec's `encodeFrequency(freqHz, masterClockHz)`, in its own words:
`round(freqHz * 2^28 / masterClockHz)`. -/
def encodeFrequency_spec (freqHz masterClockHz : ℚ) : ℤ :=
  round (freqHz * 2 ^ 28 / masterClockHz)

/-! ## Auxiliary facts -/

namespace AD9833

theorem cfg_lt (d : AD9833) : d.cfg < 65536 :=
  Nat.mod_lt _ (by norm_num)

/-- The control word does not depend on the bus trace. -/
theorem cfg_spi (d : AD9833) (l : List Nat) : cfg { d with spi := l } = cfg d := rfl

theorem writeCfgReg_eq (d : AD9833) :
    d.writeCfgReg = { d with spi := d.spi ++ [d.cfg] } := by
  simp [writeCfgReg, writeReg, Nat.mod_eq_of_lt (cfg_lt d)]

theorem data_lsb_lt (reg : Bool) (c : Nat) : data_lsb reg c < 65536 :=
  Nat.mod_lt _ (by norm_num)

theorem data_msb_lt (reg : Bool) (c : Nat) : data_msb reg c < 65536 :=
  Nat.mod_lt _ (by norm_num)

theorem writeFreqReg_eq (d : AD9833) (reg : Bool) (c : Nat) :
    d.writeFreqReg reg c =
      { d with spi := d.spi ++ [d.cfg, data_lsb reg c, data_msb reg c] } := by
  simp [writeFreqReg, writeCfgReg_eq, writeReg, Nat.mod_eq_of_lt (data_lsb_lt reg c),
    Nat.mod_eq_of_lt (data_msb_lt reg c)]

/-- Bit 13 (B28) is set in every control word. -/
theorem cfg_testBit_13 (d : AD9833) : d.cfg.testBit 13 = true := by
  have h : (65536 : Nat) = 2 ^ 16 := by norm_num
  have hb : B28_CFG.testBit 13 = true := by decide
  unfold cfg
  simp only [h, Nat.testBit_mod_two_pow, Nat.testBit_or, hb]
  simp

/-- Bit 8 (RESET) of the control word follows `_reset_state`. -/
theorem cfg_testBit_8 (d : AD9833) :
    d.cfg.testBit 8 = decide (d._reset_state % 256 ≠ 0) := by
  have h : (65536 : Nat) = 2 ^ 16 := by norm_num
  have h256 : (256 : Nat) = 2 ^ 8 := by norm_num
  have hb : B28_CFG.testBit 8 = false := by decide
  have hf : F_SELECT_CFG.testBit 8 = false := by decide
  have hp : P_SELECT_CFG.testBit 8 = false := by decide
  have hr : RESET_CFG.testBit 8 = true := by decide
  unfold cfg
  by_cases h1 : d._freq_source % 256 = 0 <;> by_cases h2 : d._phase_source % 256 = 0 <;>
    by_cases h3 : d._reset_state % 256 = 0 <;>
    simp only [h1, h2, h3, ne_eq, not_true_eq_false, not_false_eq_true, if_true, if_false] <;>
    simp only [h, h256, Nat.testBit_mod_two_pow, Nat.testBit_or, hb, hf, hp, hr,
      Nat.zero_testBit] <;>
    simp

/-- Bits 15 and 14 of every control word are clear. -/
theorem cfg_lt_two_pow_14 (d : AD9833) : d.cfg < 2 ^ 14 := by
  have hw : d._waveform % 256 < 2 ^ 14 := lt_of_lt_of_le (Nat.mod_lt _ (by norm_num)) (by norm_num)
  have hs : d._sleep_mode % 256 < 2 ^ 14 := lt_of_lt_of_le (Nat.mod_lt _ (by norm_num)) (by norm_num)
  have hf : (if d._freq_source % 256 ≠ 0 then F_SELECT_CFG else 0) < 2 ^ 14 := by
    split <;> decide
  have hp : (if d._phase_source % 256 ≠ 0 then P_SELECT_CFG else 0) < 2 ^ 14 := by
    split <;> decide
  have hr : (if d._reset_state % 256 ≠ 0 then RESET_CFG else 0) < 2 ^ 14 := by
    split <;> decide
  have hb : B28_CFG < 2 ^ 14 := by decide
  have h0 : (0 : Nat) < 2 ^ 14 := by norm_num
  unfold cfg
  have e : ∀ x : Nat, x < 2 ^ 14 → x % 65536 < 2 ^ 14 := fun x hx =>
    lt_of_le_of_lt (Nat.mod_le _ _) hx
  exact e _ (Nat.or_lt_two_pow (e _ (Nat.or_lt_two_pow (e _ (Nat.or_lt_two_pow
    (e _ (Nat.or_lt_two_pow (e _ (Nat.or_lt_two_pow (e _ (Nat.or_lt_two_pow h0 hw)) hs)) hf))
    hp)) hr)) hb)

/-- The whole effect of `generate`: final shadow fields and the six frames. -/
theorem generate_eq (ub : F32 → Nat) (d : AD9833) (reg : Bool) (freq : F32) (form : Nat) :
    d.generate ub reg freq form =
      { d with
        _reset_state := 0
        _phase_source := if reg then 1 else 0
        _waveform := form % 256
        spi := d.spi ++
          [cfg { d with _reset_state := 1 },
           cfg { d with _reset_state := 1, _phase_source := if reg then 1 else 0,
                        _waveform := form % 256 },
           cfg { d with _reset_state := 1, _phase_source := if reg then 1 else 0,
                        _waveform := form % 256 },
           data_lsb reg (freqData ub freq),
           data_msb reg (freqData ub freq),
           cfg { d with _reset_state := 0, _phase_source := if reg then 1 else 0,
                        _waveform := form % 256 }] } := by
  simp only [generate, outputEnable, writeFrequency, writeFreqReg_eq, writeCfgReg_eq,
    List.append_assoc, List.cons_append, List.nil_append]
  rfl

theorem target_eq (reg : Bool) : target reg = 2 ^ 14 * (if reg then 2 else 1) := by
  cases reg <;> decide

/-- OR-ing a word whose low `n` bits are clear does not change the low `n`
bits of the other operand. -/
theorem lor_mod_two_pow_of_mod_eq_zero (t y n : Nat) (ht : t % 2 ^ n = 0) :
    (t ||| y) % 2 ^ n = y % 2 ^ n := by
  apply Nat.eq_of_testBit_eq
  intro i
  simp only [Nat.testBit_mod_two_pow, Nat.testBit_or]
  by_cases hi : i < n
  · have h := congrArg (fun x => x.testBit i) ht
    simp only [Nat.testBit_mod_two_pow, hi, decide_True, Bool.true_and,
      Nat.zero_testBit] at h
    simp [h]
  · simp [hi]

/-- A frequency word keeps at least one of the two tag bits 15:14 set, so
it is never a control word. -/
theorem target_lor_mod_ge (reg : Bool) (x : Nat) (hx : x < 65536) :
    2 ^ 14 ≤ (target reg ||| x) % 65536 := by
  have h1 : target reg ≤ target reg ||| x :=
    Nat.le_of_testBit (fun i hi => by simp [hi])
  have h2 : target reg ||| x < 2 ^ 16 :=
    Nat.or_lt_two_pow (by cases reg <;> decide) (by simpa using hx)
  have h3 : 2 ^ 14 ≤ target reg := by cases reg <;> decide
  rw [Nat.mod_eq_of_lt (by simpa using h2)]
  exact le_trans h3 h1

theorem data_lsb_ge (reg : Bool) (c : Nat) : 2 ^ 14 ≤ data_lsb reg c :=
  target_lor_mod_ge reg _ (lt_of_le_of_lt Nat.and_le_left (Nat.mod_lt _ (by norm_num)))

theorem data_msb_ge (reg : Bool) (c : Nat) : 2 ^ 14 ≤ data_msb reg c :=
  target_lor_mod_ge reg _ (Nat.mod_lt _ (by norm_num))

theorem target_mod (reg : Bool) : target reg % 2 ^ 14 = 0 := by
  cases reg <;> decide

/-- The low 14 bits of the LSB word are the low 14 bits of the code. -/
theorem data_lsb_mod (reg : Bool) (c : Nat) : data_lsb reg c % 2 ^ 14 = c % 2 ^ 14 := by
  have hm : (0x3FFF : Nat) = 2 ^ 14 - 1 := by norm_num
  have h16 : (65536 : Nat) = 2 ^ 14 * 4 := by norm_num
  unfold data_lsb
  rw [hm, Nat.and_pow_two_sub_one_eq_mod, h16, Nat.mod_mul_right_mod,
    lor_mod_two_pow_of_mod_eq_zero _ _ _ (target_mod reg)]
  omega

/-- The low 14 bits of the MSB word are bits 27..14 of the code. -/
theorem data_msb_mod (reg : Bool) (c : Nat) :
    data_msb reg c % 2 ^ 14 = c / 2 ^ 14 % 2 ^ 14 := by
  have h16 : (65536 : Nat) = 2 ^ 14 * 4 := by norm_num
  unfold data_msb
  rw [h16, Nat.mod_mul_right_mod, lor_mod_two_pow_of_mod_eq_zero _ _ _ (target_mod reg),
    Nat.shiftRight_eq_div_pow]
  omega

theorem isControlWord_cfg (d : AD9833) : isControlWord d.cfg = true := by
  have h := cfg_lt_two_pow_14 d
  simp only [isControlWord, decide_eq_true_eq]
  exact Nat.div_eq_of_lt h

theorem isControlWord_of_ge (w : Nat) (h : 2 ^ 14 ≤ w) : isControlWord w = false := by
  have h1 : 0 < w / 2 ^ 14 := Nat.div_pos h (by norm_num)
  simp only [isControlWord, decide_eq_false_iff_not]
  omega

theorem phaseTarget_eq (reg : Bool) : phaseTarget reg = (if reg then 0xE000 else 0xC000) := by
  cases reg <;> decide

/-- The phase frame is the tag OR-ed with the low 12 bits of the data. -/
theorem phaseFrame_eq (reg : Bool) (p : Nat) :
    phaseFrame reg p = phaseTarget reg ||| (p % 4096) := by
  have hm : (0xFFF : Nat) = 2 ^ 12 - 1 := by norm_num
  have h1 : p % 65536 % 2 ^ 12 = p % 4096 := by omega
  have h2 : p % 4096 % 65536 = p % 4096 := by omega
  have h3 : phaseTarget reg ||| (p % 4096) < 2 ^ 16 :=
    Nat.or_lt_two_pow (by cases reg <;> decide) (by omega)
  unfold phaseFrame
  rw [hm, Nat.and_pow_two_sub_one_eq_mod, h1, h2, Nat.mod_eq_of_lt (by simpa using h3)]

theorem phaseFrame_lt (reg : Bool) (p : Nat) : phaseFrame reg p < 65536 :=
  Nat.mod_lt _ (by norm_num)

theorem phaseFrame_ge (reg : Bool) (p : Nat) : 0xC000 ≤ phaseFrame reg p := by
  rw [phaseFrame_eq]
  have h1 : phaseTarget reg ≤ phaseTarget reg ||| (p % 4096) :=
    Nat.le_of_testBit (fun i hi => by simp [hi])
  have h2 : 0xC000 ≤ phaseTarget reg := by cases reg <;> decide
  exact le_trans h2 h1

theorem writePhaseReg_eq (d : AD9833) (reg : Bool) (p : Nat) :
    d.writePhaseReg reg p = { d with spi := d.spi ++ [phaseFrame reg p] } := by
  simp [writePhaseReg, writeReg, Nat.mod_eq_of_lt (phaseFrame_lt reg p)]

theorem lastControlWord_append_cfg (l : List Nat) (d : AD9833) :
    lastControlWord (l ++ [d.cfg]) = some d.cfg := by
  simp [lastControlWord, List.filter_append, List.filter_cons, isControlWord_cfg,
    List.getLast?_concat]

theorem lastControlWord_append_of_not (l : List Nat) (w : Nat) (h : isControlWord w = false) :
    lastControlWord (l ++ [w]) = lastControlWord l := by
  simp [lastControlWord, List.filter_append, List.filter_cons, h]

theorem isControlWord_phaseFrame (reg : Bool) (p : Nat) :
    isControlWord (phaseFrame reg p) = false :=
  isControlWord_of_ge _ (le_trans (by norm_num) (phaseFrame_ge reg p))

theorem isControlWord_data_lsb (reg : Bool) (c : Nat) : isControlWord (data_lsb reg c) = false :=
  isControlWord_of_ge _ (data_lsb_ge reg c)

theorem isControlWord_data_msb (reg : Bool) (c : Nat) : isControlWord (data_msb reg c) = false :=
  isControlWord_of_ge _ (data_msb_ge reg c)

/-- Bit 12 (HLB) is clear in every control word. -/
theorem cfg_testBit_12 (d : AD9833) : d.cfg.testBit 12 = false := by
  have h : (65536 : Nat) = 2 ^ 16 := by norm_num
  have h256 : (256 : Nat) = 2 ^ 8 := by norm_num
  have hb : B28_CFG.testBit 12 = false := by decide
  have hf : F_SELECT_CFG.testBit 12 = false := by decide
  have hp : P_SELECT_CFG.testBit 12 = false := by decide
  have hr : RESET_CFG.testBit 12 = false := by decide
  unfold cfg
  by_cases h1 : d._freq_source % 256 = 0 <;> by_cases h2 : d._phase_source % 256 = 0 <;>
    by_cases h3 : d._reset_state % 256 = 0 <;>
    simp only [h1, h2, h3, ne_eq, not_true_eq_false, not_false_eq_true, if_true, if_false] <;>
    simp only [h, h256, Nat.testBit_mod_two_pow, Nat.testBit_or, hb, hf, hp, hr,
      Nat.zero_testBit] <;>
    simp

theorem lastControlWord_append_append_cfg (l fs : List Nat) (d : AD9833) :
    lastControlWord (l ++ (fs ++ [d.cfg])) = some d.cfg := by
  rw [← List.append_assoc]
  exact lastControlWord_append_cfg _ d

theorem lastControlWord_append_freq (l : List Nat) (d : AD9833) (reg : Bool) (c : Nat) :
    lastControlWord (l ++ [d.cfg, data_lsb reg c, data_msb reg c]) = some d.cfg := by
  have e : l ++ [d.cfg, data_lsb reg c, data_msb reg c] =
      ((l ++ [d.cfg]) ++ [data_lsb reg c]) ++ [data_msb reg c] := by simp
  rw [e, lastControlWord_append_of_not _ _ (isControlWord_data_msb reg c),
    lastControlWord_append_of_not _ _ (isControlWord_data_lsb reg c),
    lastControlWord_append_cfg]

/-- On a valid state the control word determines all five settings. -/
theorem shadow_eq_decode (d : AD9833) (h : d.valid) :
    shadow d = decodeControlWord d.cfg := by
  have key : ∀ w s f p r : Nat,
      (w = WAVEFORM_SINE ∨ w = WAVEFORM_TRIANGLE ∨ w = WAVEFORM_SQUARE ∨
        w = WAVEFORM_SQUARE_DIV2) →
      (s = NO_POWERDOWN ∨ s = DAC_POWERDOWN ∨ s = CLOCK_POWERDOWN ∨ s = FULL_POWERDOWN) →
      (f = 0 ∨ f = 1) → (p = 0 ∨ p = 1) → (r = 0 ∨ r = 1) →
      (w, s, f, p, r) = decodeControlWord (cfg
        { _cs_pin := 0, _waveform := w, _sleep_mode := s, _freq_source := f,
          _phase_source := p, _reset_state := r, spi := [] }) := by
    intro w s f p r hw hs hf hp hr
    rcases hw with hw | hw | hw | hw <;> rcases hs with hs | hs | hs | hs <;>
      rcases hf with hf | hf <;> rcases hp with hp | hp <;> rcases hr with hr | hr <;>
      subst hw hs hf hp hr <;>
      decide
  obtain ⟨hw, hs, hf, hp, hr⟩ := h
  exact key d._waveform d._sleep_mode d._freq_source d._phase_source d._reset_state
    hw hs hf hp hr

/-- The low 12 bits of a phase frame are the low 12 bits of the data. -/
theorem phaseCode_phaseFrame (reg : Bool) (p : Nat) :
    phaseCode (phaseFrame reg p) = p % 4096 := by
  have ht : phaseTarget reg % 2 ^ 12 = 0 := by cases reg <;> decide
  rw [phaseCode, phaseFrame_eq, lor_mod_two_pow_of_mod_eq_zero _ _ _ ht]
  omega

theorem allFrom_spec (f : Nat → Bool) (lo : Nat) :
    ∀ N, allFrom f lo N = true → ∀ n, n < N → f (lo + n) = true := by
  intro N
  induction N with
  | zero => intro _ n hn; omega
  | succ k ih =>
    intro h n hn
    simp only [allFrom, Bool.and_eq_true] at h
    rcases Nat.lt_succ_iff_lt_or_eq.mp hn with h1 | h1
    · exact ih h.2 n h1
    · rw [h1]; exact h.1

/-- Every whole number of degrees from 0 to 5759 passes the check. -/
theorem fractionBelow_all : allFrom fractionBelow 0 5760 = true := by
  decide!

end AD9833

namespace F32

/-- A non-negative finite value whose integral part fits is converted to that
integral part, whatever the target does out of range. -/
theorem toUInt16_of_lt (ub : F32 → Nat) (m : Nat) (e : Int) (h : truncAbs m e < 2 ^ 16) :
    toUInt16 ub (finite false m e) = truncAbs m e := by
  have h' : truncAbs m e < 65536 := by simpa using h
  by_cases h0 : truncAbs m e = 0
  · simp [toUInt16, h0]
  · simp [toUInt16, h0, h']

end F32

namespace F32

/-- Discarding the fraction of `m * 2^e` is taking its floor. -/
theorem truncAbs_eq_floor (m : Nat) (e : Int) :
    ((truncAbs m e : Nat) : ℤ) = ⌊(m : ℚ) * 2 ^ e⌋ := by
  obtain ⟨n, rfl | rfl⟩ := Int.eq_nat_or_neg e
  · have h : (m : ℚ) * 2 ^ (n : ℤ) = ((m * 2 ^ n : ℕ) : ℚ) := by
      rw [zpow_natCast]; push_cast; ring
    rw [h, Int.floor_natCast]
    simp [truncAbs]
  · by_cases hn : n = 0
    · subst hn
      simp [truncAbs]
    · have hneg : ¬ (0 : ℤ) ≤ -(n : ℤ) := by omega
      have h : (m : ℚ) * 2 ^ (-(n : ℤ)) = (m : ℚ) / ((2 ^ n : ℕ) : ℚ) := by
        rw [zpow_neg, zpow_natCast]; push_cast; ring
      rw [h, Rat.floor_natCast_div_natCast]
      simp [truncAbs, hneg]

theorem roundNearestEven_zero (s : Nat) : roundNearestEven 0 s = 0 := by
  have : 0 < 2 ^ s := Nat.two_pow_pos s
  simp [roundNearestEven, this]

/-- The rounding step yields an infinity of the given sign or a finite value
of the given sign, and it maps zero to zero. -/
theorem round_cases (neg : Bool) (M : Nat) (E : Int) :
    round neg M E = inf neg ∨
      ∃ q E', round neg M E = finite neg q E' ∧ (M = 0 → q = 0) := by
  unfold round
  dsimp only
  split_ifs with h
  · exact Or.inl rfl
  · refine Or.inr ⟨_, _, rfl, ?_⟩
    intro hM
    rw [hM, roundNearestEven_zero]

end F32

namespace F32

/-- With enough fuel, `bitLengthAux` finds the position of the top bit. -/
theorem bitLengthAux_spec : ∀ fuel n : Nat, n ≤ fuel → n ≠ 0 →
    2 ^ (bitLengthAux fuel n - 1) ≤ n ∧ n < 2 ^ bitLengthAux fuel n := by
  intro fuel
  induction fuel with
  | zero => intro n h0 h1; omega
  | succ k ih =>
    intro n hn h0
    rw [bitLengthAux, if_neg h0]
    by_cases h2 : n / 2 = 0
    · have hz : bitLengthAux k (n / 2) = 0 := by
        rw [h2]
        cases k <;> simp [bitLengthAux]
      rw [hz]
      have : n = 1 := by omega
      subst this
      norm_num
    · obtain ⟨ha, hb⟩ := ih (n / 2) (by omega) h2
      have hk : bitLengthAux k (n / 2) ≠ 0 := by
        intro hk
        rw [hk] at hb
        simp at hb
        exact h2 hb
      obtain ⟨j, hj⟩ := Nat.exists_eq_succ_of_ne_zero hk
      rw [hj] at ha hb ⊢
      simp only [Nat.succ_eq_add_one, Nat.add_sub_cancel] at ha ⊢
      rw [Nat.pow_succ] at hb ⊢
      rw [Nat.pow_succ]
      omega

/-- A non-zero `M` has its top bit at position `bitLength M - 1`. -/
theorem bitLength_spec (M : Nat) (h : M ≠ 0) :
    2 ^ (bitLength M - 1) ≤ M ∧ M < 2 ^ bitLength M :=
  bitLengthAux_spec M M (le_refl M) h

/-- Rounding to nearest moves the significand by at most half a unit of the
dropped bits. -/
theorem roundNearestEven_error (M s : Nat) :
    2 * M ≤ 2 * (roundNearestEven M s * 2 ^ s) + 2 ^ s ∧
    2 * (roundNearestEven M s * 2 ^ s) ≤ 2 * M + 2 ^ s := by
  have hP : 0 < 2 ^ s := Nat.two_pow_pos s
  have hd := Nat.div_add_mod M (2 ^ s)
  have hr := Nat.mod_lt M hP
  rw [Nat.mul_comm] at hd
  unfold roundNearestEven
  dsimp only
  split_ifs <;> (try simp only [Nat.add_mul, Nat.one_mul]) <;> omega

/-- The rounding step is faithful: a finite result differs from the exact
value `M * 2^E` by at most `2^-24` of it, or by at most `2^-150` (half the
smallest subnormal step). -/
theorem round_error (neg : Bool) (M : Nat) (E : Int) (q : Nat) (E' : Int)
    (h : round neg M E = finite neg q E') :
    |(q : ℚ) * 2 ^ E' - (M : ℚ) * 2 ^ E| ≤ (M : ℚ) * 2 ^ E / 2 ^ 24 + 2 ^ (-150 : ℤ) := by
  unfold round at h
  dsimp only at h
  split_ifs at h
  injection h with _ hq hE
  have h2E : (0 : ℚ) < 2 ^ E := zpow_pos (by norm_num) E
  have hM0 : (0 : ℚ) ≤ (M : ℚ) := by positivity
  have hsub : (0 : ℚ) < 2 ^ (-150 : ℤ) := zpow_pos (by norm_num) _
  obtain ⟨e1, e2⟩ := roundNearestEven_error M (dropBits M E)
  rw [hq] at e1 e2
  have e1' : (2 : ℚ) * M ≤ 2 * (q * 2 ^ dropBits M E) + 2 ^ dropBits M E := by exact_mod_cast e1
  have e2' : (2 : ℚ) * (q * 2 ^ dropBits M E) ≤ 2 * M + 2 ^ dropBits M E := by exact_mod_cast e2
  have hE' : (2 : ℚ) ^ E' = 2 ^ E * 2 ^ dropBits M E := by
    rw [← hE, zpow_add₀ (by norm_num), zpow_natCast]
  have hdiff : (q : ℚ) * 2 ^ E' - (M : ℚ) * 2 ^ E =
      ((q : ℚ) * 2 ^ dropBits M E - M) * 2 ^ E := by
    rw [hE']; ring
  have habs : |(q : ℚ) * 2 ^ dropBits M E - M| ≤ 2 ^ dropBits M E / 2 := by
    rw [abs_le]; constructor <;> linarith
  rw [hdiff, abs_mul, abs_of_pos h2E]
  have hrhs : (0 : ℚ) ≤ (M : ℚ) * 2 ^ E / 2 ^ 24 := by positivity
  by_cases hs0 : dropBits M E = 0
  · -- nothing is dropped: the result is exact
    have hqM : q = M := by
      rw [hs0] at e1 e2
      simp at e1 e2
      omega
    have hz : |(q : ℚ) * 2 ^ dropBits M E - M| = 0 := by
      rw [hs0, hqM]; simp
    rw [hz, zero_mul]
    linarith
  · have hmain : (2 : ℚ) ^ dropBits M E / 2 * 2 ^ E ≤
        (M : ℚ) * 2 ^ E / 2 ^ 24 + 2 ^ (-150 : ℤ) := by
      rcases le_total (Int.toNat (-149 - E)) (bitLength M - 24) with hab | hab
      · -- the 24-bit significand decides
        have hs : dropBits M E = bitLength M - 24 := max_eq_left hab
        have hMne : M ≠ 0 := by
          intro hM
          apply hs0
          rw [hs, hM]
          rfl
        have hbl := (bitLength_spec M hMne).1
        have hexp : bitLength M - 1 = dropBits M E + 23 := by
          rw [hs] at hs0 ⊢
          omega
        rw [hexp, pow_add] at hbl
        have hblq : (2 : ℚ) ^ dropBits M E * 2 ^ 23 ≤ (M : ℚ) := by exact_mod_cast hbl
        have k : (2 : ℚ) ^ dropBits M E / 2 ≤ (M : ℚ) / 2 ^ 24 := by
          rw [div_le_div_iff₀ (by norm_num) (by norm_num)]
          linarith
        have k2 := mul_le_mul_of_nonneg_right k h2E.le
        have k3 : (M : ℚ) / 2 ^ 24 * 2 ^ E = (M : ℚ) * 2 ^ E / 2 ^ 24 := by ring
        linarith
      · -- the smallest subnormal place decides
        have hs : dropBits M E = Int.toNat (-149 - E) := max_eq_right hab
        have hpos : 0 < -149 - E := by
          by_contra hc
          apply hs0
          rw [hs]
          exact Int.toNat_eq_zero.mpr (not_lt.mp hc)
        have hsz : ((dropBits M E : ℕ) : ℤ) = -149 - E := by
          rw [hs, Int.toNat_of_nonneg hpos.le]
        have hpw : (2 : ℚ) ^ dropBits M E * 2 ^ E = 2 ^ (-149 : ℤ) := by
          rw [← zpow_natCast, ← zpow_add₀ (by norm_num), hsz]
          congr 1
          ring
        have hhalf : (2 : ℚ) ^ (-149 : ℤ) / 2 = 2 ^ (-150 : ℤ) := by
          rw [show (-149 : ℤ) = -150 + 1 by norm_num, zpow_add₀ (by norm_num)]
          simp
        have : (2 : ℚ) ^ dropBits M E / 2 * 2 ^ E = 2 ^ (-150 : ℤ) := by
          rw [div_mul_eq_mul_div, hpw, hhalf]
        linarith
    calc |(q : ℚ) * 2 ^ dropBits M E - M| * 2 ^ E
        ≤ 2 ^ dropBits M E / 2 * 2 ^ E := mul_le_mul_of_nonneg_right habs h2E.le
      _ ≤ _ := hmain

/-- The product is correctly rounded: when both factors and the result are
finite, the result is within `2^-24` of the exact product (relative), or
within `2^-150` of it where the result is subnormal. -/
theorem mul_error (x y : F32) (hx : x.isFinite = true) (hy : y.isFinite = true)
    (hxy : (mul x y).isFinite = true) :
    |toRat (mul x y) - toRat x * toRat y| ≤
      |toRat x * toRat y| / 2 ^ 24 + 2 ^ (-150 : ℤ) := by
  cases x with
  | nan => simp [isFinite] at hx
  | inf a => simp [isFinite] at hx
  | finite a m₁ e₁ =>
    cases y with
    | nan => simp [isFinite] at hy
    | inf b => simp [isFinite] at hy
    | finite b m₂ e₂ =>
      have hmul : mul (finite a m₁ e₁) (finite b m₂ e₂) =
          round (a != b) (m₁ * m₂) (e₁ + e₂) := rfl
      rw [hmul] at hxy ⊢
      rcases round_cases (a != b) (m₁ * m₂) (e₁ + e₂) with h | ⟨q, E', h, _⟩
      · rw [h] at hxy
        simp [isFinite] at hxy
      · have herr := round_error (a != b) (m₁ * m₂) (e₁ + e₂) q E' h
        rw [h]
        have hY : (0 : ℚ) ≤ ((m₁ * m₂ : ℕ) : ℚ) * 2 ^ (e₁ + e₂) := by positivity
        have hsplit : ((m₁ * m₂ : ℕ) : ℚ) * 2 ^ (e₁ + e₂) =
            ((m₁ : ℚ) * 2 ^ e₁) * ((m₂ : ℚ) * 2 ^ e₂) := by
          rw [zpow_add₀ (by norm_num)]; push_cast; ring
        have hs1 : |(if (a != b) = true then (-1 : ℚ) else 1)| = 1 := by
          split_ifs <;> simp
        have h1 : toRat (finite (a != b) q E') =
            (if (a != b) = true then (-1 : ℚ) else 1) * ((q : ℚ) * 2 ^ E') := by
          simp only [toRat]; ring
        have h2 : toRat (finite a m₁ e₁) * toRat (finite b m₂ e₂) =
            (if (a != b) = true then (-1 : ℚ) else 1) *
              (((m₁ * m₂ : ℕ) : ℚ) * 2 ^ (e₁ + e₂)) := by
          rw [hsplit]
          cases a <;> cases b <;> simp [toRat]
        rw [h1, h2, ← mul_sub, abs_mul, abs_mul, hs1, one_mul, one_mul, abs_of_nonneg hY]
        exact herr

end F32

namespace F32

/-- Rounding to nearest gives the truncated quotient or the next integer. -/
theorem roundNearestEven_bounds (M s : Nat) :
    M / 2 ^ s ≤ roundNearestEven M s ∧ roundNearestEven M s ≤ M / 2 ^ s + 1 := by
  unfold roundNearestEven
  dsimp only
  split_ifs <;> omega

theorem bitLength_le (M k : Nat) (h : M < 2 ^ k) : bitLength M ≤ k := by
  by_cases hM : M = 0
  · rw [hM]; exact Nat.zero_le _
  · have h1 := (bitLength_spec M hM).1
    by_contra hc
    push_neg at hc
    have h2 : 2 ^ k ≤ 2 ^ (bitLength M - 1) := Nat.pow_le_pow_right (by norm_num) (by omega)
    omega

/-- Scaling by `2^-20`, rounding to binary32 and discarding the fraction is
plain integer division by `2^20`, for a product below `2^36` whose fraction
is not within `2^-7` of the next integer. -/
theorem toUInt16_round_scaled (ub : F32 → Nat) (M : Nat) (hM : M < 2 ^ 36)
    (hfrac : M % 2 ^ 20 < 2 ^ 20 - 2 ^ 13) :
    toUInt16 ub (round false M (-20)) = M / 2 ^ 20 := by
  have hbl : bitLength M - 24 ≤ 12 := by
    have := bitLength_le M 36 hM
    omega
  have hb := roundNearestEven_bounds M (bitLength M - 24)
  have hdrop : dropBits M (-20) = bitLength M - 24 := by
    simp [dropBits]
  unfold round
  simp only [hdrop]
  generalize bitLength M - 24 = s at hbl hb
  have hE : ¬ (0 ≤ (-20 : ℤ) + (s : ℤ) ∧
      2 ^ 128 ≤ roundNearestEven M s * 2 ^ ((-20 : ℤ) + (s : ℤ)).toNat) := by
    intro h
    omega
  rw [if_neg hE]
  have htr : truncAbs (roundNearestEven M s) (-20 + (s : ℤ)) = M / 2 ^ 20 := by
    have hneg : ¬ (0 : ℤ) ≤ -20 + (s : ℤ) := by omega
    have hexp : (-(-20 + (s : ℤ))).toNat = 20 - s := by omega
    rw [truncAbs, if_neg hneg, hexp]
    generalize roundNearestEven M s = q at hb
    interval_cases s <;> simp only [Nat.reduceSub, Nat.reducePow] at hb ⊢ <;> omega
  have hlt : M / 2 ^ 20 < 2 ^ 16 := by omega
  rw [toUInt16_of_lt ub _ _ (by rw [htr]; exact hlt), htr]

end F32

namespace AD9833

/-- The value `11258999 * 2^-20` is the binary32 nearest to the literal
`10.7374182`: it lies within half a unit in the last place (`2^-21`). -/
theorem freqFactor_nearest :
    F32.isBinary32 freqFactor ∧
    |F32.toRat freqFactor - 107374182 / 10000000| < 2 ^ (-21 : ℤ) := by
  refine ⟨by decide, ?_⟩
  rw [abs_lt]
  norm_num [F32.toRat, freqFactor, zpow_neg]

/-- The value `11930465 * 2^-20` is the binary32 nearest to the quotient
`4096 / 360`: it lies within half a unit in the last place (`2^-21`). -/
theorem degFactor_nearest :
    F32.isBinary32 degFactor ∧
    |F32.toRat degFactor - 4096 / 360| < 2 ^ (-21 : ℤ) := by
  refine ⟨by decide, ?_⟩
  rw [abs_lt]
  norm_num [F32.toRat, degFactor, zpow_neg]

/-- For a whole number of degrees below 5760 the phase data is the integer
quotient `n * 11930465 / 2^20`, whatever the target does out of range. -/
theorem phaseDataDeg_whole (ub : F32 → Nat) (n : Nat) (hn : n < 5760) :
    phaseDataDeg ub (F32.finite false n 0) = n * 11930465 / 2 ^ 20 := by
  have hmul : F32.mul (F32.finite false n 0) degFactor =
      F32.round false (n * 11930465) (-20) := by
    simp [F32.mul, degFactor]
  have hfrac : (n * 11930465) % 2 ^ 20 < 2 ^ 20 - 2 ^ 13 := by
    have h := allFrom_spec _ _ _ fractionBelow_all n hn
    simpa [fractionBelow] using h
  rw [phaseDataDeg, hmul]
  exact F32.toUInt16_round_scaled ub _ (by omega) hfrac

end AD9833

/-! ## Control word layout -/

/-- C1: for a shadow state whose waveform is one of the four `WAVEFORM_*`
values and whose sleep mode is one of the four `*_POWERDOWN` values, the
control word sent by `writeCfgReg` has bit 13 set, bit 12 clear, bit 11 set
iff the frequency source is non-zero (FREQ1), bit 10 set iff the phase source
is non-zero (PHASE1), bit 8 set iff the reset state is non-zero (output
disabled), bit 7 set iff the sleep mode is CLOCK or FULL power-down, bit 6 set
iff it is DAC or FULL power-down, bit 5 set iff the waveform is SQUARE or
SQUARE_DIV2, bit 3 set iff it is SQUARE, bit 1 set iff it is TRIANGLE, and
bits 15, 14, 9, 4, 2, 0 clear; it is the single frame `writeCfgReg` appends;
and the state (Sine, no power-down, FREQ0, PHASE0, reset set) encodes to
0x2100. -/
theorem AD9833.C1_control_word_layout (d : AD9833)
    (hw : d._waveform = WAVEFORM_SINE ∨ d._waveform = WAVEFORM_TRIANGLE ∨
      d._waveform = WAVEFORM_SQUARE ∨ d._waveform = WAVEFORM_SQUARE_DIV2)
    (hs : d._sleep_mode = NO_POWERDOWN ∨ d._sleep_mode = DAC_POWERDOWN ∨
      d._sleep_mode = CLOCK_POWERDOWN ∨ d._sleep_mode = FULL_POWERDOWN) :
    (d.writeCfgReg).spi = d.spi ++ [d.cfg] ∧
    d.cfg < 2 ^ 16 ∧
    d.cfg.testBit 15 = false ∧
    d.cfg.testBit 14 = false ∧
    d.cfg.testBit 13 = true ∧
    d.cfg.testBit 12 = false ∧
    (d.cfg.testBit 11 = true ↔ d._freq_source % 256 ≠ 0) ∧
    (d.cfg.testBit 10 = true ↔ d._phase_source % 256 ≠ 0) ∧
    d.cfg.testBit 9 = false ∧
    (d.cfg.testBit 8 = true ↔ d._reset_state % 256 ≠ 0) ∧
    (d.cfg.testBit 7 = true ↔
      (d._sleep_mode = CLOCK_POWERDOWN ∨ d._sleep_mode = FULL_POWERDOWN)) ∧
    (d.cfg.testBit 6 = true ↔
      (d._sleep_mode = DAC_POWERDOWN ∨ d._sleep_mode = FULL_POWERDOWN)) ∧
    (d.cfg.testBit 5 = true ↔
      (d._waveform = WAVEFORM_SQUARE ∨ d._waveform = WAVEFORM_SQUARE_DIV2)) ∧
    d.cfg.testBit 4 = false ∧
    (d.cfg.testBit 3 = true ↔ d._waveform = WAVEFORM_SQUARE) ∧
    d.cfg.testBit 2 = false ∧
    (d.cfg.testBit 1 = true ↔ d._waveform = WAVEFORM_TRIANGLE) ∧
    d.cfg.testBit 0 = false ∧
    AD9833.cfg { _waveform := WAVEFORM_SINE, _sleep_mode := NO_POWERDOWN,
                 _freq_source := FREQ0, _phase_source := PHASE0, _reset_state := 1 } = 0x2100 := by
  have hmod : d.cfg < 65536 := Nat.mod_lt _ (by norm_num)
  refine ⟨by simp [AD9833.writeCfgReg, AD9833.writeReg, Nat.mod_eq_of_lt hmod], hmod, ?_⟩
  by_cases hf : d._freq_source % 256 = 0 <;>
  by_cases hp : d._phase_source % 256 = 0 <;>
  by_cases hr : d._reset_state % 256 = 0 <;>
  rcases hw with hw | hw | hw | hw <;>
  rcases hs with hs | hs | hs | hs <;>
  simp only [AD9833.cfg, hw, hs, hf, hp, hr, ne_eq, not_true_eq_false, not_false_eq_true,
    if_true, if_false] <;>
  decide

/-- Witness for C1 at the state (SQUARE, FULL power-down, FREQ1, PHASE0,
reset set). -/
theorem AD9833.C1_control_word_layout_witness :
    (AD9833.cfg { _waveform := WAVEFORM_SQUARE, _sleep_mode := FULL_POWERDOWN,
                  _freq_source := 1, _reset_state := 1 }).testBit 13 = true ∧
    (AD9833.cfg { _waveform := WAVEFORM_SQUARE, _sleep_mode := FULL_POWERDOWN,
                  _freq_source := 1, _reset_state := 1 }).testBit 12 = false :=
  have h := AD9833.C1_control_word_layout
    { _waveform := WAVEFORM_SQUARE, _sleep_mode := FULL_POWERDOWN,
      _freq_source := 1, _reset_state := 1 }
    (Or.inr (Or.inr (Or.inl rfl))) (Or.inr (Or.inr (Or.inr rfl)))
  ⟨h.2.2.2.2.1, h.2.2.2.2.2.1⟩

/-! ## Frequency writes -/

/-- C2: from every state, for every register and frequency, `writeFrequency`
leaves the shadow fields alone and appends exactly three frames to the bus,
in this order: the control word of the current shadow state (bit 13, B28,
set), then the LSB word, whose low 14 bits are the low 14 bits of the code,
then the MSB word, whose low 14 bits are the next 14 bits of the code. -/
theorem AD9833.C2_writeFrequency_three_frames (ub : F32 → Nat) (d : AD9833) (reg : Bool)
    (freq : F32) :
    d.writeFrequency ub reg freq =
      { d with spi := d.spi ++ [d.cfg, AD9833.data_lsb reg (AD9833.freqData ub freq),
                                AD9833.data_msb reg (AD9833.freqData ub freq)] } ∧
    d.cfg.testBit 13 = true ∧
    AD9833.data_lsb reg (AD9833.freqData ub freq) % 2 ^ 14 = AD9833.freqData ub freq % 2 ^ 14 ∧
    AD9833.data_msb reg (AD9833.freqData ub freq) % 2 ^ 14 =
      AD9833.freqData ub freq / 2 ^ 14 % 2 ^ 14 :=
  ⟨AD9833.writeFreqReg_eq d reg _, AD9833.cfg_testBit_13 d, AD9833.data_lsb_mod reg _,
    AD9833.data_msb_mod reg _⟩

/-- C3, as stated, fails: `generate(1, 440.0, WAVEFORM_SQUARE)` on a new
controller puts six frames on the bus, not five; the control word 0x2528 is
sent twice, once by `generate` and once more by `writeFrequency`. -/
theorem AD9833.C3_generate_not_five_frames :
    (AD9833.generate (fun _ => 0) (AD9833.new 10) true (F32.finite false 440 0)
      WAVEFORM_SQUARE).spi = [0x2100, 0x2528, 0x2528, 0x9274, 0x8000, 0x2428] ∧
    (AD9833.generate (fun _ => 0) (AD9833.new 10) true (F32.finite false 440 0)
      WAVEFORM_SQUARE).spi.length ≠ 5 := by
  decide

/-- C3, amended: from every state, `generate(reg, freq, form)` appends
exactly six frames, in this order: the control word with output disabled;
the control word with waveform `form`, phase source `reg` and output still
disabled; that same control word again (sent by `writeFrequency`); the LSB
frequency word for `reg`; the MSB frequency word for `reg`; the control word
with waveform `form`, phase source `reg` and output enabled. -/
theorem AD9833.C3_generate_six_frames (ub : F32 → Nat) (d : AD9833) (reg : Bool)
    (freq : F32) (form : Nat) :
    (d.generate ub reg freq form).spi = d.spi ++
      [AD9833.cfg { d with _reset_state := 1 },
       AD9833.cfg { d with _reset_state := 1, _phase_source := if reg then 1 else 0,
                           _waveform := form % 256 },
       AD9833.cfg { d with _reset_state := 1, _phase_source := if reg then 1 else 0,
                           _waveform := form % 256 },
       AD9833.data_lsb reg (AD9833.freqData ub freq),
       AD9833.data_msb reg (AD9833.freqData ub freq),
       AD9833.cfg { d with _reset_state := 0, _phase_source := if reg then 1 else 0,
                           _waveform := form % 256 }] := by
  rw [AD9833.generate_eq]

/-- C4: for a frequency code `c < 2^28`, the two words `writeFreqReg` builds
are `tag ||| (c % 2^14)` and `tag ||| (c / 2^14)` with `tag = 0x4000` for
FREQ0 and `0x8000` for FREQ1, and the low 14 bits of the two words give the
code back: `(msb <<< 14) ||| lsb = c`. -/
theorem AD9833.C4_frequency_words_round_trip (reg : Bool) (c : Nat) (hc : c < 2 ^ 28) :
    AD9833.data_lsb reg c = (if reg then 0x8000 else 0x4000) ||| (c % 2 ^ 14) ∧
    AD9833.data_msb reg c = (if reg then 0x8000 else 0x4000) ||| (c / 2 ^ 14) ∧
    ((AD9833.data_msb reg c % 2 ^ 14) <<< 14) ||| (AD9833.data_lsb reg c % 2 ^ 14) = c := by
  have hm : (0x3FFF : Nat) = 2 ^ 14 - 1 := by norm_num
  have h32 : c % 2 ^ 32 = c := Nat.mod_eq_of_lt (lt_of_lt_of_le hc (by norm_num))
  have hlo : c % 2 ^ 14 < 2 ^ 14 := Nat.mod_lt _ (by norm_num)
  have hhi : c / 2 ^ 14 < 2 ^ 14 := by omega
  have htag : AD9833.target reg = (if reg then 0x8000 else 0x4000) := by
    cases reg <;> decide
  have hor : ∀ y, y < 2 ^ 14 → AD9833.target reg ||| y < 65536 := by
    intro y hy
    have h1 : AD9833.target reg < 2 ^ 16 := by cases reg <;> decide
    have h2 : y < 2 ^ 16 := lt_of_lt_of_le hy (by norm_num)
    exact Nat.or_lt_two_pow h1 h2
  have e1 : AD9833.data_lsb reg c = AD9833.target reg ||| (c % 2 ^ 14) := by
    unfold AD9833.data_lsb
    rw [h32, hm, Nat.and_pow_two_sub_one_eq_mod]
    have : c % 65536 % 2 ^ 14 = c % 2 ^ 14 := by omega
    rw [this, Nat.mod_eq_of_lt (hor _ hlo)]
  have e2 : AD9833.data_msb reg c = AD9833.target reg ||| (c / 2 ^ 14) := by
    unfold AD9833.data_msb
    rw [h32, Nat.shiftRight_eq_div_pow]
    have : c / 2 ^ 14 % 65536 = c / 2 ^ 14 := by omega
    rw [this, Nat.mod_eq_of_lt (hor _ hhi)]
  refine ⟨htag ▸ e1, htag ▸ e2, ?_⟩
  rw [AD9833.data_lsb_mod, AD9833.data_msb_mod, Nat.mod_eq_of_lt hhi, Nat.shiftLeft_eq,
    Nat.mul_comm, ← Nat.mul_add_lt_is_or hlo]
  omega

/-- Witness for C4 at FREQ1 and the code `10_737_418` (1 MHz). -/
theorem AD9833.C4_frequency_words_round_trip_witness :
    AD9833.data_lsb true 10737418 = 0x8000 ||| (10737418 % 2 ^ 14) ∧
    AD9833.data_msb true 10737418 = 0x8000 ||| (10737418 / 2 ^ 14) ∧
    ((AD9833.data_msb true 10737418 % 2 ^ 14) <<< 14) |||
      (AD9833.data_lsb true 10737418 % 2 ^ 14) = 10737418 :=
  AD9833.C4_frequency_words_round_trip true 10737418 (by norm_num)

/-- C5, as stated, fails: the driver has no error path. For
`hz = 2^25 = 33_554_432` (above 25 MHz; code `360_287_968`, above `2^28 - 1`)
`writeFrequency` on a new controller sends the control word and the two
frequency words 0x4EE0 and 0x55E6, which carry the code reduced modulo
`2^28`; for the negative `hz = -0.0625` it sends the control word and two
frequency words that carry the code 0. -/
theorem AD9833.C5_no_invalid_frequency_error :
    F32.isBinary32 (F32.finite false 1 25) ∧
    F32.toRat (F32.finite false 1 25) = 33554432 ∧
    AD9833.freqData (fun _ => 0) (F32.finite false 1 25) = 360287968 ∧
    2 ^ 28 - 1 < AD9833.freqData (fun _ => 0) (F32.finite false 1 25) ∧
    (AD9833.writeFrequency (fun _ => 0) (AD9833.new 10) false (F32.finite false 1 25)).spi
      = [0x2000, 0x4EE0, 0x55E6] ∧
    F32.isBinary32 (F32.finite true 1 (-4)) ∧
    F32.toRat (F32.finite true 1 (-4)) < 0 ∧
    (AD9833.writeFrequency (fun _ => 0) (AD9833.new 10) false (F32.finite true 1 (-4))).spi
      = [0x2000, 0x4000, 0x4000] := by
  refine ⟨by decide, ?_, by decide, by decide, by decide, by decide, ?_, by decide⟩
  · norm_num [F32.toRat]
  · norm_num [F32.toRat]

/-- C5, amended: `writeFrequency` never rejects a request. For every `hz`
(negative and too large ones included) it appends the control word and the
two frequency words of the converted code `c`, and the two 14-bit fields
carry `c` modulo `2^28`: a code of `2^28` or more is silently reduced. -/
theorem AD9833.C5_writeFrequency_never_rejects (ub : F32 → Nat) (d : AD9833) (reg : Bool)
    (freq : F32) :
    (d.writeFrequency ub reg freq).spi =
      d.spi ++ [d.cfg, AD9833.data_lsb reg (AD9833.freqData ub freq),
                AD9833.data_msb reg (AD9833.freqData ub freq)] ∧
    AD9833.data_msb reg (AD9833.freqData ub freq) % 2 ^ 14 * 2 ^ 14 +
      AD9833.data_lsb reg (AD9833.freqData ub freq) % 2 ^ 14 =
      AD9833.freqData ub freq % 2 ^ 28 := by
  refine ⟨by rw [AD9833.writeFrequency, AD9833.writeFreqReg_eq], ?_⟩
  rw [AD9833.data_lsb_mod, AD9833.data_msb_mod]
  omega

/-- C6, as stated, fails: for `hz = 1.0` (in range, scaled value about
10.74) the code passed to `writeFreqReg` is 10, while
`round(1 * 2^28 / 25_000_000)` is 11: the product is truncated, not rounded
to nearest. -/
theorem AD9833.C6_code_is_not_rounded :
    F32.isBinary32 (F32.finite false 1 0) ∧
    F32.toRat (F32.finite false 1 0) = 1 ∧
    encodeFrequency_spec (F32.toRat (F32.finite false 1 0)) 25000000 = 11 ∧
    AD9833.freqData (fun _ => 0) (F32.finite false 1 0) = 10 ∧
    (AD9833.freqData (fun _ => 0) (F32.finite false 1 0) : ℤ) ≠
      encodeFrequency_spec (F32.toRat (F32.finite false 1 0)) 25000000 := by
  have h1 : F32.toRat (F32.finite false 1 0) = 1 := by norm_num [F32.toRat]
  have h2 : encodeFrequency_spec (F32.toRat (F32.finite false 1 0)) 25000000 = 11 := by
    rw [h1, encodeFrequency_spec, round_eq, Int.floor_eq_iff]
    norm_num
  have h3 : AD9833.freqData (fun _ => 0) (F32.finite false 1 0) = 10 := by decide
  refine ⟨by decide, h1, h2, h3, ?_⟩
  rw [h2, h3]
  norm_num

/-- C6, amended: for every `hz` in the supported range (`hz` not negative,
the single-precision product `hz * 10.7374182f` finite and below `2^32`),
the code that `writeFrequency` passes to `writeFreqReg` is that product with
its fractional part discarded (its floor), not the nearest integer of
`hz * 2^28 / 25_000_000`; the product is the correctly rounded value of
`hz * 11258999 / 2^20` (within `2^-24` of it, relative, or within `2^-150`);
and `hz = 1_000_000` gives `10_737_418`. -/
theorem AD9833.C6_code_is_floor_of_float_product (ub : F32 → Nat) (hz : F32)
    (hfin : (F32.mul hz AD9833.freqFactor).isFinite = true)
    (hpos : 0 ≤ F32.toRat hz)
    (hlt : F32.toRat (F32.mul hz AD9833.freqFactor) < 2 ^ 32) :
    (AD9833.freqData ub hz : ℤ) = ⌊F32.toRat (F32.mul hz AD9833.freqFactor)⌋ ∧
    |F32.toRat (F32.mul hz AD9833.freqFactor) - F32.toRat hz * (11258999 / 2 ^ 20)| ≤
      F32.toRat hz * (11258999 / 2 ^ 20) / 2 ^ 24 + 2 ^ (-150 : ℤ) ∧
    AD9833.freqData ub (F32.finite false 1000000 0) = 10737418 := by
  refine ⟨?_, ?_, ?_⟩
  · cases hz with
    | nan => simp [F32.mul, F32.isFinite] at hfin
    | inf a => simp [F32.mul, AD9833.freqFactor, F32.isFinite] at hfin
    | finite neg m e =>
      have hmul : F32.mul (F32.finite neg m e) AD9833.freqFactor =
          F32.round neg (m * 11258999) (e + -20) := by
        simp [F32.mul, AD9833.freqFactor]
      rw [hmul] at hfin hlt
      unfold AD9833.freqData
      rw [hmul]
      rcases F32.round_cases neg (m * 11258999) (e + -20) with h | ⟨q, E', h, hq⟩
      · rw [h] at hfin
        simp [F32.isFinite] at hfin
      · rw [h] at hlt
        rw [h]
        have htr := F32.truncAbs_eq_floor q E'
        cases neg with
        | true =>
          have hm : m = 0 := by
            have h2 : (0 : ℚ) < 2 ^ e := zpow_pos (by norm_num) e
            have h3 : (0 : ℚ) ≤ -1 * (m : ℚ) * 2 ^ e := by simpa [F32.toRat] using hpos
            have h4 : (m : ℚ) ≤ 0 := by
              by_contra hc
              push_neg at hc
              have := mul_pos hc h2
              linarith
            exact_mod_cast le_antisymm h4 (by positivity)
          have hq0 : q = 0 := hq (by simp [hm])
          subst hq0
          simp [F32.toUInt32, F32.truncAbs, F32.toRat]
        | false =>
          have hval : F32.toRat (F32.finite false q E') = (q : ℚ) * 2 ^ E' := by
            simp [F32.toRat]
          rw [hval] at hlt ⊢
          rw [← htr]
          have hlt' : F32.truncAbs q E' < 2 ^ 32 := by
            have h5 : ((F32.truncAbs q E' : ℕ) : ℤ) < 2 ^ 32 := by
              rw [htr, Int.floor_lt]
              exact_mod_cast hlt
            exact_mod_cast h5
          by_cases h0 : F32.truncAbs q E' = 0
          · simp [F32.toUInt32, h0]
          · have hlt2 : F32.truncAbs q E' < 4294967296 := by
              simpa using hlt'
            simp [F32.toUInt32, h0, hlt2]
  · have hK : F32.toRat AD9833.freqFactor = 11258999 / 2 ^ 20 := by
      simp only [F32.toRat, AD9833.freqFactor]
      norm_num [zpow_neg]
    have hzfin : hz.isFinite = true := by
      cases hz with
      | nan => simp [F32.mul, F32.isFinite] at hfin
      | inf a => simp [F32.mul, AD9833.freqFactor, F32.isFinite] at hfin
      | finite neg m e => rfl
    have herr := F32.mul_error hz AD9833.freqFactor hzfin rfl hfin
    rw [hK] at herr
    rwa [abs_of_nonneg (mul_nonneg hpos (by norm_num))] at herr
  · have h : F32.mul (F32.finite false 1000000 0) AD9833.freqFactor =
        F32.finite false 10737418 0 := by decide
    simp [AD9833.freqData, h, F32.toUInt32, F32.truncAbs]

/-- Witness for C6 at `hz = 1_000_000`, whose product is exactly
`10_737_418`. -/
theorem AD9833.C6_code_is_floor_of_float_product_witness :
    (AD9833.freqData (fun _ => 0) (F32.finite false 1000000 0) : ℤ) =
      ⌊F32.toRat (F32.mul (F32.finite false 1000000 0) AD9833.freqFactor)⌋ ∧
    AD9833.freqData (fun _ => 0) (F32.finite false 1000000 0) = 10737418 :=
  have h := AD9833.C6_code_is_floor_of_float_product (fun _ => 0)
    (F32.finite false 1000000 0) (by decide) (by norm_num [F32.toRat])
    (by
      have h : F32.mul (F32.finite false 1000000 0) AD9833.freqFactor =
          F32.finite false 10737418 0 := by decide
      rw [h]
      norm_num [F32.toRat])
  ⟨h.1, h.2.2⟩

/-! ## The composite operation `generate` -/

/-- C7: in the frames `generate` emits, from every state (output enabled or
not), the first frame is a control word with bit 8 (RESET) set; the second
and third frames are control words with bit 8 set; the two frequency words
come fourth and fifth, strictly between the first and the last frame, and are
not control words (one of bits 15:14 is set); the last frame is a control
word (bits 15:14 clear) with bit 8 clear, the only such one. -/
theorem AD9833.C7_output_disabled_during_load (ub : F32 → Nat) (d : AD9833) (reg : Bool)
    (freq : F32) (form : Nat) :
    ∃ c₁ c₂ c₃ c₆ : Nat,
      (d.generate ub reg freq form).spi = d.spi ++
        [c₁, c₂, c₃, AD9833.data_lsb reg (AD9833.freqData ub freq),
         AD9833.data_msb reg (AD9833.freqData ub freq), c₆] ∧
      c₁ = AD9833.cfg { d with _reset_state := 1 } ∧
      (c₁ < 2 ^ 14 ∧ c₁.testBit 8 = true) ∧
      (c₂ < 2 ^ 14 ∧ c₂.testBit 8 = true) ∧
      (c₃ < 2 ^ 14 ∧ c₃.testBit 8 = true) ∧
      2 ^ 14 ≤ AD9833.data_lsb reg (AD9833.freqData ub freq) ∧
      2 ^ 14 ≤ AD9833.data_msb reg (AD9833.freqData ub freq) ∧
      (c₆ < 2 ^ 14 ∧ c₆.testBit 8 = false) ∧
      c₆ = AD9833.cfg (d.generate ub reg freq form) := by
  refine ⟨_, _, _, _, by rw [AD9833.generate_eq], rfl, ⟨AD9833.cfg_lt_two_pow_14 _, ?_⟩,
    ⟨AD9833.cfg_lt_two_pow_14 _, ?_⟩, ⟨AD9833.cfg_lt_two_pow_14 _, ?_⟩,
    AD9833.data_lsb_ge _ _, AD9833.data_msb_ge _ _, ⟨AD9833.cfg_lt_two_pow_14 _, ?_⟩, ?_⟩
  · rw [AD9833.cfg_testBit_8]; rfl
  · rw [AD9833.cfg_testBit_8]; rfl
  · rw [AD9833.cfg_testBit_8]; rfl
  · rw [AD9833.cfg_testBit_8]; rfl
  · rw [AD9833.generate_eq]; rfl

/-- C8 fails on the code: after `begin` on a new controller,
`generate(FREQ1, 440.0, WAVEFORM_SQUARE)` loads the frequency into FREQ1
(words 0x9274, 0x8000) but the final control word, 0x2428, has bit 11 clear:
the output is still sourced from FREQ0. `generate` stores `reg` in
`_phase_source` (bit 10) and never touches `_freq_source`. -/
theorem AD9833.C8_generate_does_not_select_frequency_register :
    (AD9833.generate (fun _ => 0) (AD9833.begin (AD9833.new 10)) true (F32.finite false 440 0)
      WAVEFORM_SQUARE).spi = [0x2100, 0x2100, 0x2528, 0x2528, 0x9274, 0x8000, 0x2428] ∧
    Nat.testBit 0x2428 11 = false ∧
    Nat.testBit 0x2428 10 = true ∧
    (AD9833.generate (fun _ => 0) (AD9833.begin (AD9833.new 10)) true (F32.finite false 440 0)
      WAVEFORM_SQUARE)._freq_source = FREQ0 := by
  decide

/-- C9: after `generate(reg, freq, form)`, from every state, the shadow
state has waveform `form`, phase source `reg`, reset state 0 (output
enabled), and the sleep mode and the frequency source it had before. -/
theorem AD9833.C9_generate_shadow_state (ub : F32 → Nat) (d : AD9833) (reg : Bool)
    (freq : F32) (form : Nat) (hform : form < 256) :
    (d.generate ub reg freq form)._waveform = form ∧
    (d.generate ub reg freq form)._phase_source = (if reg then PHASE1 else PHASE0) ∧
    (d.generate ub reg freq form)._reset_state = 0 ∧
    (d.generate ub reg freq form)._sleep_mode = d._sleep_mode ∧
    (d.generate ub reg freq form)._freq_source = d._freq_source := by
  rw [AD9833.generate_eq]
  exact ⟨Nat.mod_eq_of_lt hform, rfl, rfl, rfl, rfl⟩

/-- Witness for C9 at `generate(FREQ1, 440.0, WAVEFORM_SQUARE)` on a new
controller. -/
theorem AD9833.C9_generate_shadow_state_witness :
    (AD9833.generate (fun _ => 0) (AD9833.new 10) true (F32.finite false 440 0)
      WAVEFORM_SQUARE)._waveform = WAVEFORM_SQUARE ∧
    (AD9833.generate (fun _ => 0) (AD9833.new 10) true (F32.finite false 440 0)
      WAVEFORM_SQUARE)._phase_source = PHASE1 :=
  have h := AD9833.C9_generate_shadow_state (fun _ => 0) (AD9833.new 10) true
    (F32.finite false 440 0) WAVEFORM_SQUARE (by decide)
  ⟨h.1, h.2.1⟩

/-! ## Initialisation -/

/-- C10, as stated, fails: `begin` after `setWaveform(WAVEFORM_SQUARE)`
leaves the waveform at SQUARE, not SINE, and the frame it sends is 0x2128,
not 0x2100. -/
theorem AD9833.C10_begin_does_not_restore_defaults :
    (AD9833.begin (AD9833.setWaveform (AD9833.new 10) WAVEFORM_SQUARE))._waveform
      = WAVEFORM_SQUARE ∧
    (AD9833.begin (AD9833.setWaveform (AD9833.new 10) WAVEFORM_SQUARE))._waveform
      ≠ WAVEFORM_SINE ∧
    (AD9833.begin (AD9833.setWaveform (AD9833.new 10) WAVEFORM_SQUARE)).spi
      = (AD9833.setWaveform (AD9833.new 10) WAVEFORM_SQUARE).spi ++ [0x2128] := by
  decide

/-- C10, amended: from every state, `begin` sets the reset state (output
disabled), leaves every other shadow field as it was, and appends exactly one
frame, the control word of the resulting state, whose bit 8 is set; on a
newly constructed controller the resulting state is the power-on default
(Sine, no power-down, FREQ0, PHASE0, output disabled) and the frame is
0x2100. -/
theorem AD9833.C10_begin_sets_reset_and_writes_once (d : AD9833) (cs : Nat) :
    d.begin = { d with _reset_state := 1
                       spi := d.spi ++ [AD9833.cfg { d with _reset_state := 1 }] } ∧
    (AD9833.cfg { d with _reset_state := 1 }).testBit 8 = true ∧
    (AD9833.new cs).begin =
      { _cs_pin := cs % 256, _waveform := WAVEFORM_SINE, _sleep_mode := NO_POWERDOWN,
        _freq_source := FREQ0, _phase_source := PHASE0, _reset_state := 1,
        spi := [0x2100] } := by
  have h : ∀ x : AD9833, x.begin =
      { x with _reset_state := 1
               spi := x.spi ++ [AD9833.cfg { x with _reset_state := 1 }] } := by
    intro x
    rw [AD9833.begin, AD9833.writeCfgReg_eq]
  refine ⟨h d, ?_, ?_⟩
  · rw [AD9833.cfg_testBit_8]; rfl
  · have hc : AD9833.cfg { (AD9833.new cs) with _reset_state := 1 } =
        AD9833.cfg { _reset_state := 1 } := rfl
    have hv : AD9833.cfg { _reset_state := 1 } = 0x2100 := by decide
    rw [h, hc, hv]
    rfl

/-! ## Construction -/

/-- C11, as stated, fails: a newly constructed controller has reset state 0
(output not held in reset), and the first control word of
`setWaveform(WAVEFORM_SINE)`, an operation other than `outputEnable(true)`,
is 0x2000, with bit 8 clear. -/
theorem AD9833.C11_constructed_state_is_not_in_reset :
    (AD9833.new 10)._reset_state = 0 ∧
    (AD9833.setWaveform (AD9833.new 10) WAVEFORM_SINE).spi = [0x2000] ∧
    Nat.testBit 0x2000 8 = false := by
  decide

/-- C11, amended: a newly constructed controller has waveform SINE, no
power-down, frequency source FREQ0, phase source PHASE0, reset state 0
(output not held in reset) and has sent nothing. The first control word
written on it has bit 8 set when the operation is `begin`,
`outputEnable(false)` or `generate`, and bit 8 clear when it is
`writeFrequency`, `selectFrequency`, `selectPhase`, `setWaveform`, `sleep`
or `outputEnable(true)`; the phase writes send no control word. -/
theorem AD9833.C11_constructed_state (P : AD9833.Toolchain) (cs : Nat) (op : AD9833.Op) :
    AD9833.shadow (AD9833.new cs) = (WAVEFORM_SINE, NO_POWERDOWN, FREQ0, PHASE0, 0) ∧
    (AD9833.new cs).spi = [] ∧
    (AD9833.firstControlWord (AD9833.step P (AD9833.new cs) op).spi).map
        (fun w => w.testBit 8) =
      (match op with
        | AD9833.Op.begin => some true
        | AD9833.Op.outputEnable false => some true
        | AD9833.Op.generate _ _ _ => some true
        | AD9833.Op.writePhaseRad _ _ => none
        | AD9833.Op.writePhaseDeg _ _ => none
        | _ => some false) := by
  refine ⟨rfl, rfl, ?_⟩
  have hnil : (AD9833.new cs).spi = [] := rfl
  cases op with
  | begin =>
    simp only [AD9833.step, AD9833.begin, AD9833.writeCfgReg_eq, hnil, List.nil_append,
      AD9833.firstControlWord, List.filter_cons, AD9833.isControlWord_cfg, if_true,
      List.head?_cons, Option.map_some', AD9833.cfg_testBit_8]
    rfl
  | writeFrequency reg freq =>
    simp only [AD9833.step, AD9833.writeFrequency, AD9833.writeFreqReg_eq, hnil, List.nil_append,
      AD9833.firstControlWord, List.filter_cons, AD9833.isControlWord_cfg, if_true,
      List.head?_cons, Option.map_some', AD9833.cfg_testBit_8]
    rfl
  | selectFrequency reg =>
    simp only [AD9833.step, AD9833.selectFrequency, AD9833.writeCfgReg_eq, hnil, List.nil_append,
      AD9833.firstControlWord, List.filter_cons, AD9833.isControlWord_cfg, if_true,
      List.head?_cons, Option.map_some', AD9833.cfg_testBit_8]
    rfl
  | writePhaseRad reg rad =>
    simp [AD9833.step, AD9833.writePhaseRad, AD9833.writePhaseReg_eq, hnil,
      AD9833.firstControlWord, List.filter_cons,
      AD9833.isControlWord_of_ge _ (le_trans (by norm_num) (AD9833.phaseFrame_ge reg _))]
  | writePhaseDeg reg deg =>
    simp [AD9833.step, AD9833.writePhaseDeg, AD9833.writePhaseReg_eq, hnil,
      AD9833.firstControlWord, List.filter_cons,
      AD9833.isControlWord_of_ge _ (le_trans (by norm_num) (AD9833.phaseFrame_ge reg _))]
  | selectPhase reg =>
    simp only [AD9833.step, AD9833.selectPhase, AD9833.writeCfgReg_eq, hnil, List.nil_append,
      AD9833.firstControlWord, List.filter_cons, AD9833.isControlWord_cfg, if_true,
      List.head?_cons, Option.map_some', AD9833.cfg_testBit_8]
    rfl
  | setWaveform mode =>
    simp only [AD9833.step, AD9833.setWaveform, AD9833.writeCfgReg_eq, hnil, List.nil_append,
      AD9833.firstControlWord, List.filter_cons, AD9833.isControlWord_cfg, if_true,
      List.head?_cons, Option.map_some', AD9833.cfg_testBit_8]
    rfl
  | outputEnable state =>
    cases state <;>
    · simp only [AD9833.step, AD9833.outputEnable, AD9833.writeCfgReg_eq, hnil, List.nil_append,
        AD9833.firstControlWord, List.filter_cons, AD9833.isControlWord_cfg, if_true,
        List.head?_cons, Option.map_some', AD9833.cfg_testBit_8]
      rfl
  | sleep mode =>
    simp only [AD9833.step, AD9833.sleep, AD9833.writeCfgReg_eq, hnil, List.nil_append,
      AD9833.firstControlWord, List.filter_cons, AD9833.isControlWord_cfg, if_true,
      List.head?_cons, Option.map_some', AD9833.cfg_testBit_8]
    rfl
  | generate reg freq form =>
    simp only [AD9833.step, AD9833.generate_eq, hnil, List.nil_append,
      AD9833.firstControlWord, List.filter_cons, AD9833.isControlWord_cfg, if_true,
      List.head?_cons, Option.map_some', AD9833.cfg_testBit_8]
    rfl

/-! ## Phase writes -/

/-- C12: for every register and every phase data `p`, `writePhaseReg` leaves
the shadow fields alone and appends exactly one frame, `tag ||| (p % 4096)`
with `tag = 0xC000` for PHASE0 and `0xE000` for PHASE1; bit 12 of that frame
is clear, and the frame is not a control word (its bits 15:14 are `11`). -/
theorem AD9833.C12_writePhaseReg_one_frame (d : AD9833) (reg : Bool) (p : Nat) :
    d.writePhaseReg reg p = { d with spi := d.spi ++ [AD9833.phaseFrame reg p] } ∧
    AD9833.phaseFrame reg p = (if reg then 0xE000 else 0xC000) ||| (p % 4096) ∧
    (AD9833.phaseFrame reg p).testBit 12 = false ∧
    AD9833.phaseFrame reg p / 2 ^ 14 = 3 ∧
    AD9833.isControlWord (AD9833.phaseFrame reg p) = false := by
  have hge := AD9833.phaseFrame_ge reg p
  have hlt := AD9833.phaseFrame_lt reg p
  refine ⟨AD9833.writePhaseReg_eq d reg p, ?_, ?_, by omega,
    AD9833.isControlWord_of_ge _ (le_trans (by norm_num) hge)⟩
  · rw [AD9833.phaseFrame_eq, AD9833.phaseTarget_eq]
  · rw [AD9833.phaseFrame_eq, Nat.testBit_or,
      Nat.testBit_lt_two_pow (show p % 4096 < 2 ^ 12 by omega)]
    cases reg <;> decide

/-- C13, as stated, fails. For the negative angle `deg = -0.0625` the phase
code is 0, while for `deg + 360 = 359.9375` it is 4095: the conversion
discards the fraction toward zero. For the positive angle
`deg = 1866236 * 2^-17` (about 14.238) the phase code is 161, while for
`deg + 360` it is 162: the single-precision product is rounded before its
fraction is discarded. -/
theorem AD9833.C13_phase_code_not_cyclic :
    F32.isBinary32 (F32.finite true 1 (-4)) ∧ F32.isBinary32 (F32.finite false 5759 (-4)) ∧
    F32.toRat (F32.finite false 5759 (-4)) = F32.toRat (F32.finite true 1 (-4)) + 360 ∧
    AD9833.phaseCode (AD9833.phaseFrame false
      (AD9833.phaseDataDeg (fun _ => 0) (F32.finite true 1 (-4)))) = 0 ∧
    AD9833.phaseCode (AD9833.phaseFrame false
      (AD9833.phaseDataDeg (fun _ => 0) (F32.finite false 5759 (-4)))) = 4095 ∧
    F32.isBinary32 (F32.finite false 1866236 (-17)) ∧
    F32.isBinary32 (F32.finite false 12263039 (-15)) ∧
    F32.toRat (F32.finite false 12263039 (-15)) =
      F32.toRat (F32.finite false 1866236 (-17)) + 360 ∧
    AD9833.phaseCode (AD9833.phaseFrame false
      (AD9833.phaseDataDeg (fun _ => 0) (F32.finite false 1866236 (-17)))) = 161 ∧
    AD9833.phaseCode (AD9833.phaseFrame false
      (AD9833.phaseDataDeg (fun _ => 0) (F32.finite false 12263039 (-15)))) = 162 := by
  refine ⟨by decide, by decide, ?_, by decide, by decide, by decide, by decide, ?_,
    by decide, by decide⟩
  · norm_num [F32.toRat, zpow_neg]
  · norm_num [F32.toRat, zpow_neg]

/-- C13, amended: for every whole number of degrees `n` from 0 to 5399 (so
that `n + 360` is still in `uint16_t` range after scaling), the 12-bit phase
code `writePhaseDeg` places in the phase word is
`(n * 11930465 / 2^20) % 4096` and is the same for `n + 360` as for `n`; the
code for 0 degrees is 0 and the code for 180 degrees is 2048. -/
theorem AD9833.C13_phase_code_cyclic_on_whole_degrees (ub : F32 → Nat) (reg : Bool) (n : Nat)
    (hn : n < 5400) :
    AD9833.phaseCode (AD9833.phaseFrame reg
        (AD9833.phaseDataDeg ub (F32.finite false (n + 360) 0))) =
      AD9833.phaseCode (AD9833.phaseFrame reg
        (AD9833.phaseDataDeg ub (F32.finite false n 0))) ∧
    AD9833.phaseCode (AD9833.phaseFrame reg
        (AD9833.phaseDataDeg ub (F32.finite false n 0))) = n * 11930465 / 2 ^ 20 % 4096 ∧
    AD9833.phaseCode (AD9833.phaseFrame reg
        (AD9833.phaseDataDeg ub (F32.finite false 0 0))) = 0 ∧
    AD9833.phaseCode (AD9833.phaseFrame reg
        (AD9833.phaseDataDeg ub (F32.finite false 180 0))) = 2048 := by
  have hfrac : (n * 11930465) % 2 ^ 20 < 2 ^ 20 - 2 ^ 13 := by
    have h := AD9833.allFrom_spec _ _ _ AD9833.fractionBelow_all n (by omega)
    simpa [AD9833.fractionBelow] using h
  simp only [AD9833.phaseCode_phaseFrame]
  rw [AD9833.phaseDataDeg_whole ub (n + 360) (by omega),
    AD9833.phaseDataDeg_whole ub n (by omega), AD9833.phaseDataDeg_whole ub 0 (by norm_num),
    AD9833.phaseDataDeg_whole ub 180 (by norm_num)]
  refine ⟨?_, rfl, by norm_num, by norm_num⟩
  have e1 : (n + 360) * 11930465 = n * 11930465 + 104 + 2 ^ 20 * 4096 := by ring
  have e2 : (n * 11930465 + 104) / 2 ^ 20 = n * 11930465 / 2 ^ 20 := by
    generalize n * 11930465 = M at hfrac
    omega
  rw [e1, Nat.add_mul_div_left _ _ (by norm_num : 0 < 2 ^ 20), e2, Nat.add_mod_right]

/-- Witness for C13 at 90 degrees and PHASE1. -/
theorem AD9833.C13_phase_code_cyclic_on_whole_degrees_witness :
    AD9833.phaseCode (AD9833.phaseFrame true
        (AD9833.phaseDataDeg (fun _ => 0) (F32.finite false (90 + 360) 0))) =
      AD9833.phaseCode (AD9833.phaseFrame true
        (AD9833.phaseDataDeg (fun _ => 0) (F32.finite false 90 0))) :=
  (AD9833.C13_phase_code_cyclic_on_whole_degrees (fun _ => 0) true 90 (by norm_num)).1

/-! ## Frame effects of the single operations -/

/-- C14: from every state, `setWaveform(shape)`, `sleep(mode)`,
`selectFrequency(reg)`, `selectPhase(reg)` and `outputEnable(enabled)` each
change only their own shadow field (waveform, sleep mode, frequency source,
phase source, reset state; `outputEnable` stores the inverse, reset state =
not enabled), leave the other fields as they were, and append exactly one
frame, the control word of the updated state. -/
theorem AD9833.C14_single_flag_operations (d : AD9833) (shape mode : Nat) (reg enabled : Bool)
    (hshape : shape < 256) (hmode : mode < 256) :
    d.setWaveform shape =
      { d with _waveform := shape
               spi := d.spi ++ [AD9833.cfg { d with _waveform := shape }] } ∧
    d.sleep mode =
      { d with _sleep_mode := mode
               spi := d.spi ++ [AD9833.cfg { d with _sleep_mode := mode }] } ∧
    d.selectFrequency reg =
      { d with _freq_source := if reg then FREQ1 else FREQ0
               spi := d.spi ++
                 [AD9833.cfg { d with _freq_source := if reg then FREQ1 else FREQ0 }] } ∧
    d.selectPhase reg =
      { d with _phase_source := if reg then PHASE1 else PHASE0
               spi := d.spi ++
                 [AD9833.cfg { d with _phase_source := if reg then PHASE1 else PHASE0 }] } ∧
    d.outputEnable enabled =
      { d with _reset_state := if enabled then 0 else 1
               spi := d.spi ++
                 [AD9833.cfg { d with _reset_state := if enabled then 0 else 1 }] } := by
  refine ⟨?_, ?_, ?_, ?_, ?_⟩
  · rw [AD9833.setWaveform, AD9833.writeCfgReg_eq, Nat.mod_eq_of_lt hshape]
  · rw [AD9833.sleep, AD9833.writeCfgReg_eq, Nat.mod_eq_of_lt hmode]
  · rw [AD9833.selectFrequency, AD9833.writeCfgReg_eq]; rfl
  · rw [AD9833.selectPhase, AD9833.writeCfgReg_eq]; rfl
  · rw [AD9833.outputEnable, AD9833.writeCfgReg_eq]

/-- Witness for C14 at `setWaveform(WAVEFORM_TRIANGLE)` and
`sleep(DAC_POWERDOWN)` on a new controller. -/
theorem AD9833.C14_single_flag_operations_witness :
    (AD9833.new 10).setWaveform WAVEFORM_TRIANGLE =
      { (AD9833.new 10) with
        _waveform := WAVEFORM_TRIANGLE
        spi := (AD9833.new 10).spi ++
          [AD9833.cfg { (AD9833.new 10) with _waveform := WAVEFORM_TRIANGLE }] } ∧
    (AD9833.new 10).sleep DAC_POWERDOWN =
      { (AD9833.new 10) with
        _sleep_mode := DAC_POWERDOWN
        spi := (AD9833.new 10).spi ++
          [AD9833.cfg { (AD9833.new 10) with _sleep_mode := DAC_POWERDOWN }] } :=
  have h := AD9833.C14_single_flag_operations (AD9833.new 10) WAVEFORM_TRIANGLE DAC_POWERDOWN
    true false (by decide) (by decide)
  ⟨h.1, h.2.1⟩

/-- C15: `writeFrequency`, `writePhaseDeg` and `writePhaseRad`, for every
register and value, change nothing but the bus trace: every shadow field
keeps its value; in particular a frequency write leaves the frequency source
and a phase write leaves the phase source as it was. -/
theorem AD9833.C15_register_writes_keep_shadow_state (ub ub' radData : F32 → Nat) (d : AD9833)
    (reg : Bool) (freq deg rad : F32) :
    d.writeFrequency ub reg freq =
      { d with spi := d.spi ++ [d.cfg, AD9833.data_lsb reg (AD9833.freqData ub freq),
                                AD9833.data_msb reg (AD9833.freqData ub freq)] } ∧
    d.writePhaseDeg ub' reg deg =
      { d with spi := d.spi ++ [AD9833.phaseFrame reg (AD9833.phaseDataDeg ub' deg)] } ∧
    d.writePhaseRad radData reg rad =
      { d with spi := d.spi ++ [AD9833.phaseFrame reg (radData rad)] } ∧
    AD9833.shadow (d.writeFrequency ub reg freq) = AD9833.shadow d ∧
    AD9833.shadow (d.writePhaseDeg ub' reg deg) = AD9833.shadow d ∧
    AD9833.shadow (d.writePhaseRad radData reg rad) = AD9833.shadow d ∧
    (d.writeFrequency ub reg freq)._freq_source = d._freq_source ∧
    (d.writePhaseDeg ub' reg deg)._phase_source = d._phase_source ∧
    (d.writePhaseRad radData reg rad)._phase_source = d._phase_source := by
  have h1 := AD9833.writeFreqReg_eq d reg (AD9833.freqData ub freq)
  have h2 := AD9833.writePhaseReg_eq d reg (AD9833.phaseDataDeg ub' deg)
  have h3 := AD9833.writePhaseReg_eq d reg (radData rad)
  refine ⟨h1, h2, h3, ?_, ?_, ?_, ?_, ?_, ?_⟩
  · rw [AD9833.writeFrequency, h1]; rfl
  · rw [AD9833.writePhaseDeg, h2]; rfl
  · rw [AD9833.writePhaseRad, h3]; rfl
  · rw [AD9833.writeFrequency, h1]
  · rw [AD9833.writePhaseDeg, h2]
  · rw [AD9833.writePhaseRad, h3]

/-- C16: from every state, two calls of `writeFrequency` in succession with
the same register and frequency put the same three frames on the bus both
times. -/
theorem AD9833.C16_writeFrequency_twice_same_frames (ub : F32 → Nat) (d : AD9833) (reg : Bool)
    (freq : F32) :
    (d.writeFrequency ub reg freq).spi =
      d.spi ++ [d.cfg, AD9833.data_lsb reg (AD9833.freqData ub freq),
                AD9833.data_msb reg (AD9833.freqData ub freq)] ∧
    ((d.writeFrequency ub reg freq).writeFrequency ub reg freq).spi =
      (d.writeFrequency ub reg freq).spi ++
        [d.cfg, AD9833.data_lsb reg (AD9833.freqData ub freq),
         AD9833.data_msb reg (AD9833.freqData ub freq)] := by
  have h : ∀ x : AD9833, x.writeFrequency ub reg freq =
      { x with spi := x.spi ++ [x.cfg, AD9833.data_lsb reg (AD9833.freqData ub freq),
                                AD9833.data_msb reg (AD9833.freqData ub freq)] } :=
    fun x => AD9833.writeFreqReg_eq x reg _
  refine ⟨by rw [h], ?_⟩
  rw [h (d.writeFrequency ub reg freq), h d]
  rfl

/-- C17 fails on the code: `writeFrequency(FREQ1, 33554432.0)` on a new
controller hands the code `360_287_968` (above `2^28`) to `writeFreqReg`,
whose MSB word is 0xD5E6: bits 15:14 are `11` and bit 13 is clear, the
address of phase register 0, not the FREQ1 tag `10`. The LSB word 0x8EE0
carries the FREQ1 tag. -/
theorem AD9833.C17_msb_word_can_address_a_phase_register :
    F32.isBinary32 (F32.finite false 1 25) ∧
    AD9833.freqData (fun _ => 0) (F32.finite false 1 25) = 360287968 ∧
    (AD9833.writeFrequency (fun _ => 0) (AD9833.new 10) true (F32.finite false 1 25)).spi
      = [0x2000, 0x8EE0, 0xD5E6] ∧
    AD9833.data_lsb true 360287968 / 2 ^ 14 = 2 ∧
    AD9833.data_msb true 360287968 = 0xD5E6 ∧
    AD9833.data_msb true 360287968 / 2 ^ 14 = 3 ∧
    (AD9833.data_msb true 360287968).testBit 13 = false := by
  decide

/-- C18: in every state, whatever 8-bit values `setWaveform` and `sleep`
stored, the control word `writeCfgReg` sends has bit 13 (B28) set, bit 12
(HLB) clear and bits 15:14 equal to `00`; and in the whole trace of any
sequence of public calls on a new controller, every frame that is a control
word (bits 15:14 `00`) has bit 13 set and bit 12 clear. -/
theorem AD9833.C18_control_word_mode_bits (P : AD9833.Toolchain) (d : AD9833) (w m cs : Nat)
    (ops : List AD9833.Op) :
    (d.cfg.testBit 13 = true ∧ d.cfg.testBit 12 = false ∧ d.cfg / 2 ^ 14 = 0) ∧
    (((d.setWaveform w).sleep m).cfg.testBit 13 = true ∧
      ((d.setWaveform w).sleep m).cfg.testBit 12 = false ∧
      ((d.setWaveform w).sleep m).cfg / 2 ^ 14 = 0) ∧
    ∀ frame ∈ (AD9833.run P (AD9833.new cs) ops).spi, AD9833.isControlWord frame = true →
      frame.testBit 13 = true ∧ frame.testBit 12 = false := by
  have hall : ∀ x : AD9833,
      x.cfg.testBit 13 = true ∧ x.cfg.testBit 12 = false ∧ x.cfg / 2 ^ 14 = 0 :=
    fun x => ⟨AD9833.cfg_testBit_13 x, AD9833.cfg_testBit_12 x,
      Nat.div_eq_of_lt (AD9833.cfg_lt_two_pow_14 x)⟩
  refine ⟨hall d, hall _, ?_⟩
  have hstep : ∀ (x : AD9833) (op : AD9833.Op),
      (∀ frame ∈ x.spi, AD9833.isControlWord frame = true →
        frame.testBit 13 = true ∧ frame.testBit 12 = false) →
      ∀ frame ∈ (AD9833.step P x op).spi, AD9833.isControlWord frame = true →
        frame.testBit 13 = true ∧ frame.testBit 12 = false := by
    intro x op hx frame hf hc
    have hcfg : ∀ y : AD9833, frame = y.cfg →
        frame.testBit 13 = true ∧ frame.testBit 12 = false :=
      fun y hy => hy ▸ ⟨AD9833.cfg_testBit_13 y, AD9833.cfg_testBit_12 y⟩
    have hno : ∀ v : Nat, AD9833.isControlWord v = false → frame = v →
        frame.testBit 13 = true ∧ frame.testBit 12 = false := by
      intro v hv hfv
      rw [hfv, hv] at hc
      exact absurd hc (by simp)
    cases op with
    | begin =>
      simp only [AD9833.step, AD9833.begin, AD9833.writeCfgReg_eq, List.mem_append,
        List.mem_singleton] at hf
      rcases hf with hf | hf
      · exact hx frame hf hc
      · exact hcfg _ hf
    | writeFrequency reg freq =>
      simp only [AD9833.step, AD9833.writeFrequency, AD9833.writeFreqReg_eq, List.mem_append,
        List.mem_cons, List.mem_singleton, List.not_mem_nil, or_false] at hf
      rcases hf with hf | hf | hf | hf
      · exact hx frame hf hc
      · exact hcfg _ hf
      · exact hno _ (AD9833.isControlWord_data_lsb _ _) hf
      · exact hno _ (AD9833.isControlWord_data_msb _ _) hf
    | selectFrequency reg =>
      simp only [AD9833.step, AD9833.selectFrequency, AD9833.writeCfgReg_eq, List.mem_append,
        List.mem_singleton] at hf
      rcases hf with hf | hf
      · exact hx frame hf hc
      · exact hcfg _ hf
    | writePhaseRad reg rad =>
      simp only [AD9833.step, AD9833.writePhaseRad, AD9833.writePhaseReg_eq, List.mem_append,
        List.mem_singleton] at hf
      rcases hf with hf | hf
      · exact hx frame hf hc
      · exact hno _ (AD9833.isControlWord_phaseFrame _ _) hf
    | writePhaseDeg reg deg =>
      simp only [AD9833.step, AD9833.writePhaseDeg, AD9833.writePhaseReg_eq, List.mem_append,
        List.mem_singleton] at hf
      rcases hf with hf | hf
      · exact hx frame hf hc
      · exact hno _ (AD9833.isControlWord_phaseFrame _ _) hf
    | selectPhase reg =>
      simp only [AD9833.step, AD9833.selectPhase, AD9833.writeCfgReg_eq, List.mem_append,
        List.mem_singleton] at hf
      rcases hf with hf | hf
      · exact hx frame hf hc
      · exact hcfg _ hf
    | setWaveform mode =>
      simp only [AD9833.step, AD9833.setWaveform, AD9833.writeCfgReg_eq, List.mem_append,
        List.mem_singleton] at hf
      rcases hf with hf | hf
      · exact hx frame hf hc
      · exact hcfg _ hf
    | outputEnable state =>
      simp only [AD9833.step, AD9833.outputEnable, AD9833.writeCfgReg_eq, List.mem_append,
        List.mem_singleton] at hf
      rcases hf with hf | hf
      · exact hx frame hf hc
      · exact hcfg _ hf
    | sleep mode =>
      simp only [AD9833.step, AD9833.sleep, AD9833.writeCfgReg_eq, List.mem_append,
        List.mem_singleton] at hf
      rcases hf with hf | hf
      · exact hx frame hf hc
      · exact hcfg _ hf
    | generate reg freq form =>
      simp only [AD9833.step, AD9833.generate_eq, List.mem_append,
        List.mem_cons, List.mem_singleton, List.not_mem_nil, or_false] at hf
      rcases hf with hf | hf | hf | hf | hf | hf | hf
      · exact hx frame hf hc
      · exact hcfg _ hf
      · exact hcfg _ hf
      · exact hcfg _ hf
      · exact hno _ (AD9833.isControlWord_data_lsb _ _) hf
      · exact hno _ (AD9833.isControlWord_data_msb _ _) hf
      · exact hcfg _ hf
  have hrun : ∀ (l : List AD9833.Op) (x : AD9833),
      (∀ frame ∈ x.spi, AD9833.isControlWord frame = true →
        frame.testBit 13 = true ∧ frame.testBit 12 = false) →
      ∀ frame ∈ (AD9833.run P x l).spi, AD9833.isControlWord frame = true →
        frame.testBit 13 = true ∧ frame.testBit 12 = false := by
    intro l
    induction l with
    | nil => intro x hx; exact hx
    | cons op rest ih =>
      intro x hx
      exact ih (AD9833.step P x op) (hstep x op hx)
  exact hrun ops (AD9833.new cs) (by intro frame hf; simp [AD9833.new] at hf)

/-! ## Shadow state and transmitted control words -/

/-- C19: for every sequence of public calls on a newly constructed
controller, after each call either no control word has been sent yet and the
shadow state is still the constructed one, or the control word sent last is
the encoding of the current shadow state. -/
theorem AD9833.C19_last_control_word_is_shadow_state (P : AD9833.Toolchain) (cs : Nat)
    (ops : List AD9833.Op) (k : Nat) :
    (AD9833.lastControlWord (AD9833.run P (AD9833.new cs) (ops.take k)).spi = none ∧
      AD9833.shadow (AD9833.run P (AD9833.new cs) (ops.take k)) =
        AD9833.shadow (AD9833.new cs)) ∨
    AD9833.lastControlWord (AD9833.run P (AD9833.new cs) (ops.take k)).spi =
      some (AD9833.run P (AD9833.new cs) (ops.take k)).cfg := by
  have hstep : ∀ (x : AD9833) (op : AD9833.Op),
      ((AD9833.lastControlWord x.spi = none ∧
          AD9833.shadow x = AD9833.shadow (AD9833.new cs)) ∨
        AD9833.lastControlWord x.spi = some x.cfg) →
      ((AD9833.lastControlWord (AD9833.step P x op).spi = none ∧
          AD9833.shadow (AD9833.step P x op) = AD9833.shadow (AD9833.new cs)) ∨
        AD9833.lastControlWord (AD9833.step P x op).spi =
          some (AD9833.step P x op).cfg) := by
    intro x op hx
    have hphase : ∀ (reg : Bool) (p : Nat),
        ((AD9833.lastControlWord (x.writePhaseReg reg p).spi = none ∧
            AD9833.shadow (x.writePhaseReg reg p) = AD9833.shadow (AD9833.new cs)) ∨
          AD9833.lastControlWord (x.writePhaseReg reg p).spi =
            some (x.writePhaseReg reg p).cfg) := by
      intro reg p
      rw [AD9833.writePhaseReg_eq]
      have e : AD9833.lastControlWord (x.spi ++ [AD9833.phaseFrame reg p]) =
          AD9833.lastControlWord x.spi :=
        AD9833.lastControlWord_append_of_not _ _ (AD9833.isControlWord_phaseFrame reg p)
      rcases hx with ⟨h1, h2⟩ | h
      · exact Or.inl ⟨e.trans h1, h2⟩
      · exact Or.inr (e.trans h)
    cases op with
    | begin =>
      simp only [AD9833.step, AD9833.begin, AD9833.writeCfgReg_eq]
      exact Or.inr (AD9833.lastControlWord_append_cfg _ _)
    | writeFrequency reg freq =>
      simp only [AD9833.step, AD9833.writeFrequency, AD9833.writeFreqReg_eq]
      exact Or.inr (AD9833.lastControlWord_append_freq _ _ _ _)
    | selectFrequency reg =>
      simp only [AD9833.step, AD9833.selectFrequency, AD9833.writeCfgReg_eq]
      exact Or.inr (AD9833.lastControlWord_append_cfg _ _)
    | writePhaseRad reg rad => exact hphase reg _
    | writePhaseDeg reg deg => exact hphase reg _
    | selectPhase reg =>
      simp only [AD9833.step, AD9833.selectPhase, AD9833.writeCfgReg_eq]
      exact Or.inr (AD9833.lastControlWord_append_cfg _ _)
    | setWaveform mode =>
      simp only [AD9833.step, AD9833.setWaveform, AD9833.writeCfgReg_eq]
      exact Or.inr (AD9833.lastControlWord_append_cfg _ _)
    | outputEnable state =>
      simp only [AD9833.step, AD9833.outputEnable, AD9833.writeCfgReg_eq]
      exact Or.inr (AD9833.lastControlWord_append_cfg _ _)
    | sleep mode =>
      simp only [AD9833.step, AD9833.sleep, AD9833.writeCfgReg_eq]
      exact Or.inr (AD9833.lastControlWord_append_cfg _ _)
    | generate reg freq form =>
      simp only [AD9833.step, AD9833.generate_eq]
      exact Or.inr (AD9833.lastControlWord_append_append_cfg x.spi
        [AD9833.cfg { x with _reset_state := 1 },
         AD9833.cfg { x with _reset_state := 1, _phase_source := if reg then 1 else 0,
                             _waveform := form % 256 },
         AD9833.cfg { x with _reset_state := 1, _phase_source := if reg then 1 else 0,
                             _waveform := form % 256 },
         AD9833.data_lsb reg (AD9833.freqData P.ub32 freq),
         AD9833.data_msb reg (AD9833.freqData P.ub32 freq)] _)
  have hrun : ∀ (l : List AD9833.Op) (x : AD9833),
      ((AD9833.lastControlWord x.spi = none ∧
          AD9833.shadow x = AD9833.shadow (AD9833.new cs)) ∨
        AD9833.lastControlWord x.spi = some x.cfg) →
      ((AD9833.lastControlWord (AD9833.run P x l).spi = none ∧
          AD9833.shadow (AD9833.run P x l) = AD9833.shadow (AD9833.new cs)) ∨
        AD9833.lastControlWord (AD9833.run P x l).spi = some (AD9833.run P x l).cfg) := by
    intro l
    induction l with
    | nil => intro x hx; exact hx
    | cons op rest ih =>
      intro x hx
      exact ih (AD9833.step P x op) (hstep x op hx)
  exact hrun (ops.take k) (AD9833.new cs) (Or.inl ⟨rfl, rfl⟩)

/-! ## Injectivity of the encoding -/

/-- C20: on valid shadow states (named waveform, named sleep mode, frequency
source, phase source and reset state each 0 or 1) the control-word encoding
is injective: equal control words imply equal shadow states. -/
theorem AD9833.C20_control_word_injective (d₁ d₂ : AD9833) (h₁ : d₁.valid) (h₂ : d₂.valid)
    (h : d₁.cfg = d₂.cfg) :
    AD9833.shadow d₁ = AD9833.shadow d₂ ∧
    d₁._waveform = d₂._waveform ∧ d₁._sleep_mode = d₂._sleep_mode ∧
    d₁._freq_source = d₂._freq_source ∧ d₁._phase_source = d₂._phase_source ∧
    d₁._reset_state = d₂._reset_state := by
  have hs : AD9833.shadow d₁ = AD9833.shadow d₂ := by
    rw [AD9833.shadow_eq_decode d₁ h₁, AD9833.shadow_eq_decode d₂ h₂, h]
  refine ⟨hs, ?_⟩
  simp only [AD9833.shadow, Prod.mk.injEq] at hs
  exact hs

/-- Witness for C20: the same settings held by two controllers on different
pins and with different traces. -/
theorem AD9833.C20_control_word_injective_witness :
    AD9833.shadow ((AD9833.new 9).setWaveform WAVEFORM_SQUARE) =
      AD9833.shadow (((AD9833.new 10).begin).generate (fun _ => 0) false
        (F32.finite false 440 0) WAVEFORM_SQUARE) :=
  (AD9833.C20_control_word_injective ((AD9833.new 9).setWaveform WAVEFORM_SQUARE)
    (((AD9833.new 10).begin).generate (fun _ => 0) false (F32.finite false 440 0)
      WAVEFORM_SQUARE) (by decide) (by decide) (by decide)).1
